import Mathlib

/-!
# oms4web secure-envelope subsystem: shallow embedding and verification

This file embeds the byte-level envelope codec, the public-key fingerprint
algorithm, the QR chunker, the key-request/key-response handshake and the PIN
quick-lock of the oms4web repository into Lean, and proves or refutes the
specification claims about them.

Conventions of the embedding:

* JavaScript `Uint8Array` values are `List Nat` (element values are below 256
  whenever they originate from a real `Uint8Array`).
* Out-of-range indexing `data[i]` yields `undefined`, which JavaScript
  coerces to `0` inside `<<` and `|`; the embedding uses `List.getD _ _ 0`,
  and `Array.prototype.slice` clamps, which `List.drop/take` reproduce.
* A thrown JavaScript exception is an `Except.error` carrying a `JsError`
  value that records which exception was thrown.
* The OMS textual transport is a fixed literal tag followed by base64 of the
  binary body.  `btoa`/`atob` form a bijection between byte sequences and
  base64 text supplied by the platform, so the embedding represents an OMS
  string by its decoded byte body together with a flag telling whether the
  literal tag was present (`OmsText`).
* Platform cryptography (WebCrypto) is modelled as an ideal cipher: an RSA-OAEP
  or AES ciphertext is an executable, injectively decodable byte encoding of
  the key material, parameters and plaintext, and decryption succeeds exactly
  when the key, IV and declared algorithm match.  `SubtleCrypto` rejects an
  algorithm object whose `name` is not a registered algorithm name, which the
  model reproduces.  SHA-256 is implemented concretely.
-/

/-- Byte sequences: JavaScript `Uint8Array` values as lists of naturals. -/
abbrev Bytes := List Nat

/-- The JavaScript exceptions thrown by the embedded code. -/
inductive JsError where
  /-- `throw new Error(msg)` with a fixed message. -/
  | thrown (msg : String)
  /-- `TypeError: cannot read properties of undefined` — a member access on
  the `undefined` result of a failed lookup. -/
  | typeErrorUndefined
  /-- `Invalid application ID: expected .., got ..`. -/
  | invalidApplicationId (expected got : Nat)
  /-- `Error('Invalid PKCS7 padding')`. -/
  | invalidPadding
  /-- WebCrypto `NotSupportedError`: unrecognized algorithm name. -/
  | notSupportedError
  /-- WebCrypto `OperationError`: decryption failed. -/
  | operationError
deriving DecidableEq, Repr

/-- An OMS text message, represented by its base64-decoded byte body plus a
flag telling whether the literal `oms00_` tag was present. -/
structure OmsText where
  tagged : Bool
  body : Bytes
deriving DecidableEq, Repr

/-- `writeUnsignedShort` (crypto.ts): 2 bytes, big-endian;
`arr[0] = (value >> 8) & 0xff`, `arr[1] = value & 0xff`. -/
def writeUnsignedShort (value : Nat) : Bytes :=
  [value / 256 % 256, value % 256]

/-- `writeByteArray` (crypto.ts): unsigned-short length followed by the data. -/
def writeByteArray (data : Bytes) : Bytes :=
  writeUnsignedShort data.length ++ data

/-- `writeString` (crypto.ts): UTF-8 bytes of the string written with a length
field; the embedding works on the byte form directly. -/
def writeString (s : Bytes) : Bytes :=
  writeByteArray s

/-- `readUnsignedShort` (crypto.ts): `(data[offset] << 8) | data[offset + 1]`.
Out-of-range access gives `undefined`, coerced to 0 by `<<` and `|`. -/
def readUnsignedShort (data : Bytes) (offset : Nat) : Nat :=
  256 * data.getD offset 0 + data.getD (offset + 1) 0

/-- `readByteArray` (crypto.ts): reads a length field and then
`data.slice(offset + 2, offset + 2 + length)`; `slice` clamps at the end of
the buffer, so an over-long length silently truncates. -/
def readByteArray (data : Bytes) (offset : Nat) : Bytes × Nat :=
  let length := readUnsignedShort data offset
  ((data.drop (offset + 2)).take length, offset + 2 + length)

/-- `addPkcs7Padding` (crypto.ts): append `blockSize - len % blockSize`
copies of that value. -/
def addPkcs7Padding (data : Bytes) (blockSize : Nat) : Bytes :=
  let paddingLength := blockSize - data.length % blockSize
  data ++ List.replicate paddingLength paddingLength

/-- `removePkcs7Padding` (crypto.ts): an empty buffer is returned unchanged;
otherwise the final byte is the padding length, rejected only when it exceeds
16 or the buffer length (a zero pad byte passes the guard). -/
def removePkcs7Padding (data : Bytes) : Except JsError Bytes :=
  if data.length = 0 then .ok data
  else
    let paddingLength := data.getD (data.length - 1) 0
    if 16 < paddingLength ∨ data.length < paddingLength then
      .error .invalidPadding
    else
      .ok (data.take (data.length - paddingLength))

/-! ## SHA-256 (the platform digest, implemented concretely) -/

/-- Reduce to a 32-bit word. -/
def wmod (x : Nat) : Nat := x % 4294967296

/-- 32-bit right rotation. -/
def rotr (n x : Nat) : Nat := wmod ((x >>> n) ||| (x <<< (32 - n)))

/-- 32-bit complement. -/
def wnot (x : Nat) : Nat := x ^^^ 4294967295

def ch (x y z : Nat) : Nat := (x &&& y) ^^^ (wnot x &&& z)

def maj (x y z : Nat) : Nat := (x &&& y) ^^^ (x &&& z) ^^^ (y &&& z)

def bigSigma0 (x : Nat) : Nat := rotr 2 x ^^^ rotr 13 x ^^^ rotr 22 x

def bigSigma1 (x : Nat) : Nat := rotr 6 x ^^^ rotr 11 x ^^^ rotr 25 x

def smallSigma0 (x : Nat) : Nat := rotr 7 x ^^^ rotr 18 x ^^^ (x >>> 3)

def smallSigma1 (x : Nat) : Nat := rotr 17 x ^^^ rotr 19 x ^^^ (x >>> 10)

/-- The 64 SHA-256 round constants, in decimal. -/
def kConstants : List Nat :=
  [1116352408, 1899447441, 3049323471, 3921009573, 961987163,
   1508970993, 2453635748, 2870763221, 3624381080, 310598401,
   607225278, 1426881987, 1925078388, 2162078206, 2614888103,
   3248222580, 3835390401, 4022224774, 264347078, 604807628,
   770255983, 1249150122, 1555081692, 1996064986, 2554220882,
   2821834349, 2952996808, 3210313671, 3336571891, 3584528711,
   113926993, 338241895, 666307205, 773529912, 1294757372,
   1396182291, 1695183700, 1986661051, 2177026350, 2456956037,
   2730485921, 2820302411, 3259730800, 3345764771, 3516065817,
   3600352804, 4094571909, 275423344, 430227734, 506948616,
   659060556, 883997877, 958139571, 1322822218, 1537002063,
   1747873779, 1955562222, 2024104815, 2227730452, 2361852424,
   2428436474, 2756734187, 3204031479, 3329325298]

/-- The eight 32-bit working registers of the compression function. -/
structure Sha256State where
  a : Nat
  b : Nat
  c : Nat
  d : Nat
  e : Nat
  f : Nat
  g : Nat
  h : Nat
deriving DecidableEq, Repr

def sha256InitState : Sha256State :=
  ⟨1779033703, 3144134277, 1013904242, 2773480762,
   1359893119, 2600822924, 528734635, 1541459225⟩

/-- Extend a message schedule by one word. -/
def extendScheduleOnce (w : List Nat) : List Nat :=
  let i := w.length
  let s0 := smallSigma0 (w.getD (i - 15) 0)
  let s1 := smallSigma1 (w.getD (i - 2) 0)
  w ++ [wmod (w.getD (i - 16) 0 + s0 + w.getD (i - 7) 0 + s1)]

/-- One big-endian 32-bit word from four bytes. -/
def wordOfBytes (b0 b1 b2 b3 : Nat) : Nat :=
  wmod ((b0 <<< 24) + (b1 <<< 16) + (b2 <<< 8) + b3)

/-- The 64-entry message schedule of a 64-byte block. -/
def messageSchedule (block : Bytes) : List Nat :=
  let w16 := (List.range 16).map fun i =>
    wordOfBytes (block.getD (4 * i) 0) (block.getD (4 * i + 1) 0)
      (block.getD (4 * i + 2) 0) (block.getD (4 * i + 3) 0)
  extendScheduleOnce^[48] w16

/-- One round of the SHA-256 compression function. -/
def sha256Round (s : Sha256State) (kw : Nat × Nat) : Sha256State :=
  let t1 := wmod (s.h + bigSigma1 s.e + ch s.e s.f s.g + kw.1 + kw.2)
  let t2 := wmod (bigSigma0 s.a + maj s.a s.b s.c)
  ⟨wmod (t1 + t2), s.a, s.b, s.c, wmod (s.d + t1), s.e, s.f, s.g⟩

/-- Compress one 64-byte block into the running state. -/
def compressBlock (s : Sha256State) (block : Bytes) : Sha256State :=
  let w := messageSchedule block
  let t := ((kConstants.zip w).foldl sha256Round s)
  ⟨wmod (s.a + t.a), wmod (s.b + t.b), wmod (s.c + t.c), wmod (s.d + t.d),
   wmod (s.e + t.e), wmod (s.f + t.f), wmod (s.g + t.g), wmod (s.h + t.h)⟩

/-- SHA-256 padding: `0x80`, zeros to 56 mod 64, then the 64-bit bit length. -/
def padMessage (m : Bytes) : Bytes :=
  let bitLen := 8 * m.length
  m ++ 128 :: List.replicate ((119 - m.length % 64) % 64) 0
    ++ (List.range 8).map fun i => (bitLen >>> (56 - 8 * i)) % 256

/-- The 32 digest bytes of a final state. -/
def stateBytes (s : Sha256State) : Bytes :=
  [s.a, s.b, s.c, s.d, s.e, s.f, s.g, s.h].flatMap fun w =>
    [(w >>> 24) % 256, (w >>> 16) % 256, (w >>> 8) % 256, w % 256]

/-- SHA-256 of a byte sequence. -/
def sha256 (m : Bytes) : Bytes :=
  let padded := padMessage m
  let blocks := (List.range (padded.length / 64)).map fun i =>
    (padded.drop (64 * i)).take 64
  stateBytes (blocks.foldl compressBlock sha256InitState)

/-! ## Fingerprint engine (crypto.ts: `toBigIntegerBytes`, `getFingerprint`) -/

/-- The RSA public-key parameters recovered from the exported JWK: the modulus
and public exponent as unsigned big-endian byte sequences. -/
structure RsaPublicKey where
  modulus : Bytes
  exponent : Bytes
deriving DecidableEq, Repr

/-- `toBigIntegerBytes` (crypto.ts): prepend a zero byte when the most
significant bit of the first byte is set (`(bytes[0] & 0x80) !== 0`), matching
Java `BigInteger.toByteArray()`. -/
def toBigIntegerBytes (bytes : Bytes) : Bytes :=
  if bytes.length > 0 ∧ bytes.getD 0 0 &&& 128 ≠ 0 then
    0 :: bytes
  else
    bytes

/-- The bytes hashed by `getFingerprint`: converted modulus then converted
exponent. -/
def fingerprintInput (k : RsaPublicKey) : Bytes :=
  toBigIntegerBytes k.modulus ++ toBigIntegerBytes k.exponent

/-- `getFingerprint` (crypto.ts): SHA-256 over the concatenation of the
sign-extended modulus and exponent bytes. -/
def getFingerprint (k : RsaPublicKey) : Bytes :=
  sha256 (fingerprintInput k)

/-! ## Idealized WebCrypto cipher model

An RSA-OAEP or AES ciphertext is an executable byte encoding of the key
material, the parameters and the plaintext, built from self-delimiting
`blob` fields; decryption parses the encoding and succeeds exactly when the
key, IV and bound hash/algorithm match.  `SubtleCrypto` operations first
normalize the supplied algorithm object by its `name` member and reject an
unrecognized name with `NotSupportedError`, which the model reproduces. -/

/-- Self-delimiting field encoding used inside ideal ciphertexts:
a unary length marker followed by the payload. -/
def blob (l : Bytes) : Bytes :=
  List.replicate l.length 1 ++ 0 :: l

/-- Strip one `blob` field: count the unary marker, then split. -/
def unblobAux : Nat → Bytes → Option (Bytes × Bytes)
  | k, 0 :: rest => some (rest.take k, rest.drop k)
  | k, 1 :: rest => unblobAux (k + 1) rest
  | _, _ => none

def unblob (l : Bytes) : Option (Bytes × Bytes) :=
  unblobAux 0 l

/-- A WebCrypto RSA key as imported/generated: the raw parameters plus the
OAEP hash bound to the key at import time.  Public and private halves of one
pair share these, so one record models either half. -/
structure ImportedRsaKey where
  key : RsaPublicKey
  hash : String
deriving DecidableEq, Repr

/-- One byte identifying the OAEP hash variant inside an ideal ciphertext. -/
def hashByte (h : String) : Nat :=
  if h = "SHA-1" then 1 else if h = "SHA-256" then 2 else 0

/-- The ideal RSA-OAEP ciphertext of `m` under key `k`. -/
def rsaSeal (k : ImportedRsaKey) (m : Bytes) : Bytes :=
  blob k.key.modulus ++ (blob k.key.exponent ++ (blob [hashByte k.hash] ++ m))

/-- `crypto.subtle.encrypt` for RSA-OAEP: the algorithm object must carry the
registered name. -/
def subtleRsaEncrypt (algName : String) (k : ImportedRsaKey) (m : Bytes) :
    Except JsError Bytes :=
  if algName = "RSA-OAEP" then .ok (rsaSeal k m) else .error .notSupportedError

/-- `crypto.subtle.decrypt` for RSA-OAEP: rejects an unrecognized algorithm
name with `NotSupportedError`; otherwise succeeds exactly on a ciphertext
sealed with the same key parameters and bound hash. -/
def subtleRsaDecrypt (algName : String) (k : ImportedRsaKey) (ct : Bytes) :
    Except JsError Bytes :=
  if algName = "RSA-OAEP" then
    match unblob ct with
    | none => .error .operationError
    | some (mo, r1) =>
      match unblob r1 with
      | none => .error .operationError
      | some (ex, r2) =>
        match unblob r2 with
        | none => .error .operationError
        | some (hb, m) =>
          if mo = k.key.modulus ∧ ex = k.key.exponent ∧ hb = [hashByte k.hash] then
            .ok m
          else
            .error .operationError
  else .error .notSupportedError

/-- One byte identifying the symmetric algorithm inside an ideal ciphertext. -/
def aesAlgByte (a : String) : Nat :=
  if a = "AES-CBC" then 1 else if a = "AES-GCM" then 2 else 0

/-- The ideal AES ciphertext of `m` under raw key bytes, IV and algorithm. -/
def aesSeal (algName : String) (keyRaw iv m : Bytes) : Bytes :=
  blob keyRaw ++ (blob iv ++ (blob [aesAlgByte algName] ++ m))

/-- `crypto.subtle.encrypt` for AES-CBC/AES-GCM. -/
def subtleAesEncrypt (algName : String) (keyRaw iv m : Bytes) :
    Except JsError Bytes :=
  if algName = "AES-CBC" ∨ algName = "AES-GCM" then
    .ok (aesSeal algName keyRaw iv m)
  else .error .notSupportedError

/-- `crypto.subtle.decrypt` for AES-CBC/AES-GCM: succeeds exactly when key,
IV and algorithm match the ciphertext (a wrong key is modelled as the
`OperationError` the platform raises on an authentication or padding
failure). -/
def subtleAesDecrypt (algName : String) (keyRaw iv ct : Bytes) :
    Except JsError Bytes :=
  if algName = "AES-CBC" ∨ algName = "AES-GCM" then
    match unblob ct with
    | none => .error .operationError
    | some (k, r1) =>
      match unblob r1 with
      | none => .error .operationError
      | some (i, r2) =>
        match unblob r2 with
        | none => .error .operationError
        | some (ab, m) =>
          if k = keyRaw ∧ i = iv ∧ ab = [aesAlgByte algName] then .ok m
          else .error .operationError
  else .error .notSupportedError

/-! ## Constants (constants.ts) -/

namespace APPLICATION_IDS

def ENCRYPTED_FILE : Nat := 3

def KEY_REQUEST : Nat := 4

def KEY_RESPONSE : Nat := 5

def RSA_AES_GENERIC : Nat := 6

def ENCRYPTED_MESSAGE : Nat := 8

def ENCRYPTED_OTP : Nat := 12

end APPLICATION_IDS

/-- The `algorithm` member of an RSA transformation table entry. -/
structure RsaAlgorithmSpec where
  name : String
  hash : String
deriving DecidableEq, Repr

/-- One entry of `RSA_TRANSFORMATIONS` (constants.ts). -/
structure RsaTransformation where
  idx : Nat
  name : String
  algorithm : RsaAlgorithmSpec
deriving DecidableEq, Repr

def rsaOaepSha1 : RsaTransformation :=
  ⟨1, "RSA/ECB/OAEPWithSHA-1AndMGF1Padding", ⟨"RSA-OAEP", "SHA-1"⟩⟩

def rsaOaepSha256 : RsaTransformation :=
  ⟨2, "RSA/ECB/OAEPWithSHA-256AndMGF1Padding", ⟨"RSA-OAEP", "SHA-256"⟩⟩

/-- `RSA_TRANSFORMATIONS` (constants.ts): a record keyed by index with
entries 1 and 2 only; a missing index yields `undefined` (`none`). -/
def RSA_TRANSFORMATIONS (idx : Nat) : Option RsaTransformation :=
  if idx = 1 then some rsaOaepSha1
  else if idx = 2 then some rsaOaepSha256
  else none

/-- One entry of `AES_TRANSFORMATIONS` (constants.ts). -/
structure AesTransformation where
  idx : Nat
  name : String
  algorithm : String
  ivSize : Nat
deriving DecidableEq, Repr

def aesCbcPkcs5 : AesTransformation := ⟨0, "AES/CBC/PKCS5Padding", "AES-CBC", 16⟩

def aesCbcPkcs7 : AesTransformation := ⟨1, "AES/CBC/PKCS7Padding", "AES-CBC", 16⟩

def aesGcmNoPadding : AesTransformation := ⟨2, "AES/GCM/NoPadding", "AES-GCM", 12⟩

/-- `AES_TRANSFORMATIONS` (constants.ts): an array of three entries. -/
def AES_TRANSFORMATIONS : List AesTransformation :=
  [aesCbcPkcs5, aesCbcPkcs7, aesGcmNoPadding]

/-- `EncryptionSettings` (crypto.ts). -/
structure EncryptionSettings where
  rsaTransformationIdx : Nat
  aesKeyLength : Nat
  aesTransformationIdx : Nat
deriving DecidableEq, Repr

/-! ## Hybrid crypto engine (crypto.ts, current generation) -/

namespace Crypto

/-- `parsePublicKey` (crypto.ts): import the SPKI key with the algorithm of
`RSA_TRANSFORMATIONS[idx]`; an unknown index leaves the entry `undefined` and
the `.algorithm` access throws.  The imported key binds the entry's hash. -/
def parsePublicKey (publicKeyBase64 : RsaPublicKey) (rsaTransformationIdx : Nat) :
    Except JsError ImportedRsaKey :=
  match RSA_TRANSFORMATIONS rsaTransformationIdx with
  | none => .error .typeErrorUndefined
  | some t => .ok ⟨publicKeyBase64, t.algorithm.hash⟩

/-- `aesEncryptData` (crypto.ts): GCM encrypts the raw bytes, every other
transformation encrypts with AES-CBC after explicit PKCS7 padding. -/
def aesEncryptData (aesTransformation : AesTransformation) (iv keyRaw dataBytes : Bytes) :
    Except JsError Bytes :=
  if aesTransformation.algorithm = "AES-GCM" then
    subtleAesEncrypt "AES-GCM" keyRaw iv dataBytes
  else
    subtleAesEncrypt "AES-CBC" keyRaw iv (addPkcs7Padding dataBytes 16)

/-- `aesDecryptData` (crypto.ts): GCM decrypts directly, the CBC branch
strips the explicit PKCS7 padding afterwards. -/
def aesDecryptData (aesTransformation : AesTransformation) (iv keyRaw encryptedData : Bytes) :
    Except JsError Bytes :=
  if aesTransformation.algorithm = "AES-GCM" then
    subtleAesDecrypt "AES-GCM" keyRaw iv encryptedData
  else do
    let decryptedWithPadding ← subtleAesDecrypt "AES-CBC" keyRaw iv encryptedData
    removePkcs7Padding decryptedWithPadding

/-- `RsaAesEnvelope` (types.ts, current generation): the parsed envelope
carries the looked-up transformation records. -/
structure RsaAesEnvelope where
  applicationId : Nat
  rsaTransformation : RsaTransformation
  fingerprint : Bytes
  aesTransformation : AesTransformation
  iv : Bytes
  encryptedAesKey : Bytes
  encryptedData : Bytes
deriving DecidableEq, Repr

/-- `parseRsaAesEnvelope` (crypto.ts): sequential reads at fixed offsets; the
final payload is the remaining buffer.  The transformation lookups leave
`undefined` on an unknown index, and the logging statements after the reads
dereference both records, so an unknown index surfaces as a thrown
`TypeError`, not as a dedicated decode error. -/
def parseRsaAesEnvelope (omsData : OmsText) : Except JsError RsaAesEnvelope :=
  if omsData.tagged = false then .error (.thrown "Invalid OMS data format")
  else
    let binary := omsData.body
    let applicationId := readUnsignedShort binary 0
    let rsaIdx := readUnsignedShort binary 2
    let (fingerprint, offset3) := readByteArray binary 4
    let aesIdx := readUnsignedShort binary offset3
    let (iv, offset5) := readByteArray binary (offset3 + 2)
    let (encryptedAesKey, offset6) := readByteArray binary offset5
    let encryptedData := binary.drop offset6
    match RSA_TRANSFORMATIONS rsaIdx with
    | none => .error .typeErrorUndefined
    | some rsaTransformation =>
      match AES_TRANSFORMATIONS.get? aesIdx with
      | none => .error .typeErrorUndefined
      | some aesTransformation =>
        .ok ⟨applicationId, rsaTransformation, fingerprint, aesTransformation,
             iv, encryptedAesKey, encryptedData⟩

/-- `createPayload` (crypto.ts): application id plus length-prefixed message. -/
def createPayload (applicationId : Nat) (message : Bytes) : Bytes :=
  writeUnsignedShort applicationId ++ writeByteArray message

/-- `createEncryptedMessage` (crypto.ts): a generic RSA×AES envelope around a
length-prefixed inner payload.  The fresh AES key bytes and IV are the
random values drawn by the platform, passed in explicitly. -/
def createEncryptedMessage (message : Bytes) (publicKey : RsaPublicKey)
    (settings : EncryptionSettings) (payloadApplicationId : Nat)
    (aesKeyRaw iv : Bytes) : Except JsError OmsText :=
  match AES_TRANSFORMATIONS.get? settings.aesTransformationIdx with
  | none => .error .typeErrorUndefined
  | some aesTransformation =>
    match RSA_TRANSFORMATIONS settings.rsaTransformationIdx with
    | none => .error .typeErrorUndefined
    | some rsaTransformation => do
      let pk ← parsePublicKey publicKey settings.rsaTransformationIdx
      let encryptedAesKey ← subtleRsaEncrypt rsaTransformation.algorithm.name pk aesKeyRaw
      let fingerprint := getFingerprint pk.key
      let payload := createPayload payloadApplicationId message
      let encryptedPayload ← aesEncryptData aesTransformation iv aesKeyRaw payload
      .ok ⟨true,
        writeUnsignedShort APPLICATION_IDS.RSA_AES_GENERIC ++
        writeUnsignedShort settings.rsaTransformationIdx ++
        writeByteArray fingerprint ++
        writeUnsignedShort settings.aesTransformationIdx ++
        writeByteArray iv ++
        writeByteArray encryptedAesKey ++
        writeByteArray encryptedPayload⟩

end Crypto

/-! ## File encryption (fileEncryption.ts: `encryptVaultData`) -/

/-- `encryptVaultData` (fileEncryption.ts): seal vault data as an
`ENCRYPTED_FILE` envelope; the AES transformation and RSA algorithm fall back
to their defaults when the configured index is unknown (constructing, not
ingesting), and the encrypted payload is appended raw, without a length
field.  `aesKeyRaw` and `iv` are the random values drawn by the platform. -/
def encryptVaultData (data : Bytes) (publicKeyBase64 : RsaPublicKey)
    (settings : EncryptionSettings) (aesKeyRaw iv : Bytes) :
    Except JsError OmsText := do
  let aesTransformation :=
    (AES_TRANSFORMATIONS.get? settings.aesTransformationIdx).getD aesCbcPkcs5
  let publicKey ← Crypto.parsePublicKey publicKeyBase64 settings.rsaTransformationIdx
  let rsaAlgorithm :=
    ((RSA_TRANSFORMATIONS settings.rsaTransformationIdx).getD rsaOaepSha256).algorithm
  let encryptedAesKey ← subtleRsaEncrypt rsaAlgorithm.name publicKey aesKeyRaw
  let fingerprint := getFingerprint publicKey.key
  let encryptedData ←
    if aesTransformation.algorithm = "AES-GCM" then
      subtleAesEncrypt "AES-GCM" aesKeyRaw iv data
    else
      subtleAesEncrypt "AES-CBC" aesKeyRaw iv (addPkcs7Padding data 16)
  .ok ⟨true,
    writeUnsignedShort APPLICATION_IDS.ENCRYPTED_FILE ++
    writeUnsignedShort settings.rsaTransformationIdx ++
    writeByteArray fingerprint ++
    writeUnsignedShort settings.aesTransformationIdx ++
    writeByteArray iv ++
    writeByteArray encryptedAesKey ++
    encryptedData⟩

/-! ## Key request / key response (keyRequest.ts, current generation) -/

/-- `KeyRequestContext` (types.ts): the ephemeral pair, the parsed envelope
and the outgoing message. -/
structure KeyRequestContext where
  keyPair : ImportedRsaKey
  envelope : Crypto.RsaAesEnvelope
  message : OmsText
deriving DecidableEq, Repr

/-- Model of `exportKey('spki')`: the DER encoding is an injective function
of the key parameters. -/
def spkiEncode (k : RsaPublicKey) : Bytes :=
  blob k.modulus ++ blob k.exponent

/-- Model of `importKey('spki')`: recover the key parameters. -/
def spkiDecode (b : Bytes) : Option RsaPublicKey :=
  match unblob b with
  | none => none
  | some (mo, r1) =>
    match unblob r1 with
    | none => none
    | some (ex, r2) => if r2 = [] then some ⟨mo, ex⟩ else none

/-- `createKeyRequest` (keyRequest.ts): parse the target envelope, generate a
fresh RSA-OAEP/SHA-256 pair (its parameters are the `ephemeralKey` random
value), and assemble the `KEY_REQUEST` message.  The response-transformation
entry is looked up without a fallback, so an unknown settings index throws
when the entry is used. -/
def createKeyRequest (fileName : Bytes) (encryptedData : OmsText)
    (settings : EncryptionSettings) (ephemeralKey : RsaPublicKey) :
    Except JsError KeyRequestContext := do
  let envelope ← Crypto.parseRsaAesEnvelope encryptedData
  let keyPair : ImportedRsaKey := ⟨ephemeralKey, "SHA-256"⟩
  let publicKeySpki := spkiEncode ephemeralKey
  match RSA_TRANSFORMATIONS settings.rsaTransformationIdx with
  | none => .error .typeErrorUndefined
  | some rsaTransformationKeyResponse =>
    let messageBytes :=
      writeUnsignedShort APPLICATION_IDS.KEY_REQUEST ++
      writeString fileName ++
      writeByteArray publicKeySpki ++
      writeByteArray envelope.fingerprint ++
      writeUnsignedShort envelope.rsaTransformation.idx ++
      writeUnsignedShort rsaTransformationKeyResponse.idx ++
      writeByteArray envelope.encryptedAesKey
    .ok ⟨keyPair, envelope, ⟨true, messageBytes⟩⟩

/-- `processKeyResponse` (keyRequest.ts): check the application id, read the
wrapped key, then call `crypto.subtle.decrypt` passing the transformation
table entry itself as the algorithm argument — WebCrypto therefore normalizes
the entry's `name` member, which holds the Java transformation string, not
`'RSA-OAEP'`. -/
def processKeyResponse (keyResponse : Bytes) (context : KeyRequestContext)
    (settings : EncryptionSettings) : Except JsError Bytes := do
  let responseBytes := keyResponse
  let applicationId := readUnsignedShort responseBytes 0
  if applicationId ≠ APPLICATION_IDS.KEY_RESPONSE then
    .error (.invalidApplicationId APPLICATION_IDS.KEY_RESPONSE applicationId)
  else
    let (rsaEncryptedAesKey, _) := readByteArray responseBytes 2
    match RSA_TRANSFORMATIONS settings.rsaTransformationIdx with
    | none => .error .typeErrorUndefined
    | some rsaTransformationKeyResponse => do
      let aesKeyBytes ←
        subtleRsaDecrypt rsaTransformationKeyResponse.name context.keyPair rsaEncryptedAesKey
      let aesTransformation := context.envelope.aesTransformation
      Crypto.aesDecryptData aesTransformation context.envelope.iv aesKeyBytes
        context.envelope.encryptedData

/-- Modelled from the spec: the companion device (§4.5 step 2) is a separate
system whose code is not part of this repository.  It reads the request
fields in the order `createKeyRequest` writes them, rejects a wrong tag,
unwraps the AES key with the vault owner's long-term private key using the
request's declared file-transformation index, re-wraps it for the ephemeral
public key with the requested response transformation, and returns a
`KEY_RESPONSE` message. -/
def companionRespond (request : OmsText) (longTermKey : RsaPublicKey) :
    Except JsError Bytes := do
  if request.tagged = false then .error (.thrown "Invalid OMS data format")
  else
    let b := request.body
    let applicationId := readUnsignedShort b 0
    let (_reference, o2) := readByteArray b 2
    let (publicKeySpki, o3) := readByteArray b o2
    let (_fingerprint, o4) := readByteArray b o3
    let rsaIdxFile := readUnsignedShort b o4
    let responseIdx := readUnsignedShort b (o4 + 2)
    let (encryptedAesKey, _) := readByteArray b (o4 + 4)
    if applicationId ≠ APPLICATION_IDS.KEY_REQUEST then
      .error (.invalidApplicationId APPLICATION_IDS.KEY_REQUEST applicationId)
    else
      match RSA_TRANSFORMATIONS rsaIdxFile with
      | none => .error .notSupportedError
      | some tFile => do
        let aesKey ← subtleRsaDecrypt "RSA-OAEP" ⟨longTermKey, tFile.algorithm.hash⟩ encryptedAesKey
        match spkiDecode publicKeySpki with
        | none => .error .operationError
        | some ephPub =>
          match RSA_TRANSFORMATIONS responseIdx with
          | none => .error .notSupportedError
          | some tResp => do
            let wrapped ← subtleRsaEncrypt "RSA-OAEP" ⟨ephPub, tResp.algorithm.hash⟩ aesKey
            .ok (writeUnsignedShort APPLICATION_IDS.KEY_RESPONSE ++ writeByteArray wrapped)

/-- The complete handshake of the claim: seal, build the request, let the
simulated companion answer, process the response. -/
def handshakeFlow (payload : Bytes) (recipient : RsaPublicKey)
    (settings : EncryptionSettings) (aesKeyRaw iv fileName : Bytes)
    (ephemeralKey : RsaPublicKey) : Except JsError Bytes := do
  let sealed ← encryptVaultData payload recipient settings aesKeyRaw iv
  let context ← createKeyRequest fileName sealed settings ephemeralKey
  let response ← companionRespond context.message recipient
  processKeyResponse response context settings

/-! ## Legacy key request module (earlier generation of keyRequest.ts)

This generation parses envelopes into raw index numbers and reads the
response's own transformation-index field, substituting the default entry 2
via `?? RSA_TRANSFORMATIONS[2]` when the declared index is unknown. -/

/-- One entry of the legacy `AES_TRANSFORMATIONS` array (no IV size). -/
structure AesTransformationV1 where
  idx : Nat
  name : String
  algorithm : String
deriving DecidableEq, Repr

def aesCbcV1 : AesTransformationV1 := ⟨0, "AES/CBC/PKCS5Padding", "AES-CBC"⟩

/-- The legacy `AES_TRANSFORMATIONS` array: AES-CBC only. -/
def AES_TRANSFORMATIONS_V1 : List AesTransformationV1 := [aesCbcV1]

namespace KeyRequestV1

/-- The legacy `RsaAesEnvelope` interface: raw index numbers. -/
structure RsaAesEnvelope where
  applicationId : Nat
  rsaTransformationIdx : Nat
  fingerprint : Bytes
  aesTransformationIdx : Nat
  iv : Bytes
  encryptedAesKey : Bytes
  encryptedData : Bytes
deriving DecidableEq, Repr

/-- The legacy `KeyRequestContext`. -/
structure KeyRequestContext where
  keyPair : ImportedRsaKey
  envelope : RsaAesEnvelope
  message : OmsText
deriving DecidableEq, Repr

/-- The legacy `processKeyResponse`: both input branches (tagged or bare
base64) decode to the same byte body, given here directly.  The response's
declared transformation index falls back to entry 2 when unknown
(`?? RSA_TRANSFORMATIONS[2]`), and this generation passes the entry's
`.algorithm` member to `subtle.decrypt`. -/
def processKeyResponse (keyResponse : Bytes) (context : KeyRequestContext) :
    Except JsError Bytes := do
  let responseBytes := keyResponse
  let applicationId := readUnsignedShort responseBytes 0
  if applicationId ≠ APPLICATION_IDS.KEY_RESPONSE then
    .error (.invalidApplicationId APPLICATION_IDS.KEY_RESPONSE applicationId)
  else
    let rsaTransformationIdx := readUnsignedShort responseBytes 2
    let (rsaEncryptedAesKey, _) := readByteArray responseBytes 4
    let rsaTransformation := (RSA_TRANSFORMATIONS rsaTransformationIdx).getD rsaOaepSha256
    let aesKeyBytes ←
      subtleRsaDecrypt rsaTransformation.algorithm.name context.keyPair rsaEncryptedAesKey
    let aesTransformation :=
      (AES_TRANSFORMATIONS_V1.get? context.envelope.aesTransformationIdx).getD aesCbcV1
    if aesTransformation.algorithm = "AES-GCM" then
      subtleAesDecrypt "AES-GCM" aesKeyBytes context.envelope.iv context.envelope.encryptedData
    else do
      let decryptedWithPadding ←
        subtleAesDecrypt "AES-CBC" aesKeyBytes context.envelope.iv context.envelope.encryptedData
      removePkcs7Padding decryptedWithPadding

end KeyRequestV1

/-! ## QR chunker (qrUtil.ts: `getQrSequence`) -/

/-- `QrChunk` (types.ts). -/
structure QrChunk where
  transactionId : List Char
  chunkNo : Nat
  totalChunks : Nat
  dataLength : Nat
  data : List Char
  encoded : List Char
deriving DecidableEq, Repr

/-- `Math.ceil(a / b)` for naturals. -/
def ceilDiv (a b : Nat) : Nat := (a + b - 1) / b

/-- The tab character used by `join('\t')`. -/
def tabChar : Char := Char.ofNat 9

/-- The NUL character used by `padEnd(chunkSize, '\0')`. -/
def nulChar : Char := Char.ofNat 0

/-- `getQrSequence` (qrUtil.ts): cut the message into `ceil(len/chunkSize)`
chunks sharing one random transaction id (passed in as the drawn random
value); each chunk records the true remaining length and NUL-pads the final
short slice; `encoded` is the tab-joined record. -/
def getQrSequence (message : List Char) (transactionId : List Char)
    (chunkSize : Nat) : List QrChunk :=
  let chunks := ceilDiv message.length chunkSize
  (List.range chunks).map fun chunkNo =>
    let start := chunkSize * chunkNo
    let sliced := (message.drop start).take chunkSize
    let chunkData :=
      if sliced.length < chunkSize then
        sliced ++ List.replicate (chunkSize - sliced.length) nulChar
      else sliced
    let charsToSend := message.length - chunkSize * chunkNo
    let dataLength := min chunkSize charsToSend
    let encoded :=
      transactionId ++ tabChar ::
        ((Nat.repr chunkNo).toList ++ tabChar ::
          ((Nat.repr chunks).toList ++ tabChar ::
            ((Nat.repr dataLength).toList ++ tabChar :: chunkData)))
    ⟨transactionId, chunkNo, chunks, dataLength, chunkData, encoded⟩

/-! ## Vault lock state machine and PIN quick-lock (useEncryptedVault.ts)

The vault content is modelled by its JSON serialization: `JSON.stringify`
composed with `TextEncoder` is then the identity embedding into bytes and
`JSON.parse` its inverse (both are platform bijections on plain data).  A
PBKDF2-derived AES-GCM key is identified by the password and salt it was
derived from, and an AES-GCM ciphertext under such a key decrypts exactly
when the re-derived key and IV match (an authentication failure raises the
`OperationError` that the surrounding `try` turns into `false`). -/

/-- Vault content, in serialized form. -/
abbrev VaultData := Bytes

/-- Serialization of the `EMPTY_VAULT` record. -/
def EMPTY_VAULT : VaultData := []

/-- A PBKDF2-derived AES-GCM key, identified by password and salt. -/
inductive SymKey where
  | pbkdf2 (password : Bytes) (salt : Bytes)
deriving DecidableEq, Repr

/-- An AES-GCM ciphertext kept as an opaque `ArrayBuffer` in the state. -/
structure GcmCiphertext where
  key : SymKey
  iv : Bytes
  plain : Bytes
deriving DecidableEq, Repr

def gcmEncrypt (key : SymKey) (iv : Bytes) (plain : Bytes) : GcmCiphertext :=
  ⟨key, iv, plain⟩

/-- AES-GCM decryption authenticates: it succeeds exactly when key and IV
match the ciphertext. -/
def gcmDecrypt (key : SymKey) (iv : Bytes) (c : GcmCiphertext) : Option Bytes :=
  if c.key = key ∧ c.iv = iv then some c.plain else none

/-- `generateKeyFromPassword` (crypto.ts): PBKDF2/SHA-256, 65535 iterations,
over the given salt (the randomly drawn one when none is stored). -/
def generateKeyFromPassword (password salt : Bytes) : SymKey × Bytes :=
  (.pbkdf2 password salt, salt)

/-- `VaultState` (useEncryptedVault.ts). -/
inductive VaultState where
  | loading
  | encrypted (encryptedData : OmsText)
  | pinLocked (aesKey : SymKey) (salt : Bytes) (iv : Bytes)
      (encrypted : GcmCiphertext) (omsMessage : OmsText)
  | ready
deriving DecidableEq, Repr

/-- Whether the state's `status` field is `'pin-locked'`. -/
def VaultState.isPinLocked : VaultState → Bool
  | .pinLocked _ _ _ _ _ => true
  | _ => false

/-- `encryptAndLock` (useEncryptedVault.ts): seal the six-digit PIN (plus a
newline) as an `ENCRYPTED_OTP` relay envelope, derive an AES-GCM key from the
PIN with a fresh salt, encrypt the serialized vault under a fresh 12-byte IV,
and move to the pin-locked state with the vault data reset to the empty
vault.  `relayAesKeyRaw`, `relayIv`, `salt` and `iv` are the random values
drawn by the platform. -/
def encryptAndLock (vaultData : VaultData) (publicKey : RsaPublicKey)
    (settings : EncryptionSettings) (pin : Bytes)
    (relayAesKeyRaw relayIv salt iv : Bytes) :
    Except JsError (VaultState × VaultData) := do
  let encoded := vaultData
  let omsMessage ← Crypto.createEncryptedMessage (pin ++ [10]) publicKey settings
    APPLICATION_IDS.ENCRYPTED_OTP relayAesKeyRaw relayIv
  let (aesKey, saltOut) := generateKeyFromPassword pin salt
  let cipherText := gcmEncrypt aesKey iv encoded
  .ok (.pinLocked aesKey saltOut iv cipherText omsMessage, EMPTY_VAULT)

/-- `unlockPin` (useEncryptedVault.ts): outside the pin-locked state return
`false` at once; otherwise re-derive the key from the input and the stored
salt, attempt AES-GCM decryption with the stored IV, and on success parse and
install the vault; any failure is caught and reported as `false`, leaving
state and data unchanged. -/
def unlockPin (inputValue : Bytes) (vaultState : VaultState)
    (vaultData : VaultData) : Bool × VaultState × VaultData :=
  match vaultState with
  | .pinLocked _ salt iv encrypted _ =>
    match gcmDecrypt (generateKeyFromPassword inputValue salt).1 iv encrypted with
    | some decoded => (true, .ready, decoded)
    | none => (false, vaultState, vaultData)
  | _ => (false, vaultState, vaultData)

/-- What a completed save effect wrote to the vault store. -/
inductive StoredValue where
  | oms (t : OmsText)
  | plain (jsonData : Bytes)
deriving DecidableEq, Repr

/-- The save effect of `useEncryptedVault.ts` in the ready state, as a
function of the awaited `encryptVaultData` outcome: with a public key
configured, a successful encryption stores the OMS text; a failed encryption
is caught, logged as `'Failed to encrypt vault, saving as plain JSON'` and
rethrown, so control never reaches the plain write below the `if`; without a
public key the plain JSON snapshot is stored. -/
def saveVaultEffect (publicKey : Bytes) (encResult : Except JsError Bytes)
    (jsonData : Bytes) : Except JsError StoredValue :=
  if publicKey ≠ [] then
    match encResult with
    | .ok encryptedBytes => .ok (.oms ⟨true, encryptedBytes⟩)
    | .error _ => .error (.thrown "Failed to encrypt vault, saving as plain JSON")
  else
    .ok (.plain jsonData)

/-! ## Verification-layer abbreviations and concrete example inputs -/

/-- The byte layout produced for an RSA×AES envelope whose final payload is
appended raw (file envelopes). -/
def envelopeBytes (appId rIdx : Nat) (fp : Bytes) (aIdx : Nat) (iv ek ed : Bytes) : Bytes :=
  writeUnsignedShort appId ++ writeUnsignedShort rIdx ++ writeByteArray fp ++
    writeUnsignedShort aIdx ++ writeByteArray iv ++ writeByteArray ek ++ ed

/-- The byte layout of a `KEY_REQUEST` message. -/
def requestBytes (fileName spki fp : Bytes) (fileIdx respIdx : Nat) (ek : Bytes) : Bytes :=
  writeUnsignedShort APPLICATION_IDS.KEY_REQUEST ++ writeString fileName ++
    writeByteArray spki ++ writeByteArray fp ++ writeUnsignedShort fileIdx ++
    writeUnsignedShort respIdx ++ writeByteArray ek

/-- The payload ciphertext produced by the file-encryption branch. -/
def fileCipherBytes (aesT : AesTransformation) (keyRaw iv payload : Bytes) : Bytes :=
  if aesT.algorithm = "AES-GCM" then aesSeal "AES-GCM" keyRaw iv payload
  else aesSeal "AES-CBC" keyRaw iv (addPkcs7Padding payload 16)

/-- `processKeyResponse` with the algorithm argument repaired: the entry's
`.algorithm` member is what reaches `subtle.decrypt` (as in the legacy
generation), everything else unchanged. -/
def processKeyResponseFixed (keyResponse : Bytes) (context : KeyRequestContext)
    (settings : EncryptionSettings) : Except JsError Bytes := do
  let responseBytes := keyResponse
  let applicationId := readUnsignedShort responseBytes 0
  if applicationId ≠ APPLICATION_IDS.KEY_RESPONSE then
    .error (.invalidApplicationId APPLICATION_IDS.KEY_RESPONSE applicationId)
  else
    let (rsaEncryptedAesKey, _) := readByteArray responseBytes 2
    match RSA_TRANSFORMATIONS settings.rsaTransformationIdx with
    | none => .error .typeErrorUndefined
    | some rsaTransformationKeyResponse => do
      let aesKeyBytes ←
        subtleRsaDecrypt rsaTransformationKeyResponse.algorithm.name context.keyPair
          rsaEncryptedAesKey
      let aesTransformation := context.envelope.aesTransformation
      Crypto.aesDecryptData aesTransformation context.envelope.iv aesKeyBytes
        context.envelope.encryptedData

def exampleSettings : EncryptionSettings := ⟨2, 256, 0⟩

def exampleRecipientKey : RsaPublicKey := ⟨[128, 3], [1, 0, 1]⟩

def exampleEphemeralKey : RsaPublicKey := ⟨[2, 9], [1, 0, 1]⟩

def exampleEphemeralImported : ImportedRsaKey := ⟨exampleEphemeralKey, "SHA-256"⟩

def exampleEnvelopeRecord : Crypto.RsaAesEnvelope :=
  ⟨3, rsaOaepSha256, List.replicate 32 0, aesCbcPkcs5, List.replicate 16 0, [], []⟩

def exampleContext : KeyRequestContext :=
  ⟨exampleEphemeralImported, exampleEnvelopeRecord, ⟨true, []⟩⟩

def exampleAesKeyBytes : Bytes := [7, 7, 7]

def exampleIvV1 : Bytes := List.replicate 16 1

def exampleEnvelopeV1 : KeyRequestV1.RsaAesEnvelope :=
  ⟨3, 2, [], 0, exampleIvV1, [],
   aesSeal "AES-CBC" exampleAesKeyBytes exampleIvV1 (addPkcs7Padding [97, 98, 99] 16)⟩

def exampleContextV1 : KeyRequestV1.KeyRequestContext :=
  ⟨exampleEphemeralImported, exampleEnvelopeV1, ⟨true, []⟩⟩

/-- A legacy key response declaring the unknown RSA transformation index 99. -/
def exampleResponseIdx99 : Bytes :=
  writeUnsignedShort 5 ++ writeUnsignedShort 99 ++
    writeByteArray (rsaSeal exampleEphemeralImported exampleAesKeyBytes)

/-- The handshake with the one slip repaired (`processKeyResponseFixed` as
the last step). -/
def handshakeFlowFixed (payload : Bytes) (recipient : RsaPublicKey)
    (settings : EncryptionSettings) (aesKeyRaw iv fileName : Bytes)
    (ephemeralKey : RsaPublicKey) : Except JsError Bytes := do
  let sealed ← encryptVaultData payload recipient settings aesKeyRaw iv
  let context ← createKeyRequest fileName sealed settings ephemeralKey
  let response ← companionRespond context.message recipient
  processKeyResponseFixed response context settings

/-! ## Theorems -/

theorem writeUnsignedShort_length (v : Nat) : (writeUnsignedShort v).length = 2 := rfl

theorem writeByteArray_length (d : Bytes) : (writeByteArray d).length = 2 + d.length := by
  simp [writeByteArray, writeUnsignedShort]
  omega

/-- Reading a 2-byte field at the seam of a concatenation. -/
theorem readUnsignedShort_at (pre post : Bytes) (v n : Nat)
    (hv : v < 65536) (hn : pre.length = n) :
    readUnsignedShort (pre ++ (writeUnsignedShort v ++ post)) n = v := by
  subst hn
  have h0 : (pre ++ (writeUnsignedShort v ++ post)).getD pre.length 0 = v / 256 % 256 := by
    rw [List.getD_append_right _ _ _ _ (Nat.le_refl _)]
    simp [writeUnsignedShort]
  have h1 : (pre ++ (writeUnsignedShort v ++ post)).getD (pre.length + 1) 0 = v % 256 := by
    rw [List.getD_append_right _ _ _ _ (Nat.le_add_right _ _)]
    simp [writeUnsignedShort]
  rw [readUnsignedShort, h0, h1]
  omega

/-- Reading a length-prefixed field at the seam of a concatenation. -/
theorem readByteArray_at (pre x post : Bytes) (n : Nat)
    (hx : x.length < 65536) (hn : pre.length = n) :
    readByteArray (pre ++ (writeByteArray x ++ post)) n = (x, n + 2 + x.length) := by
  subst hn
  have hlen : readUnsignedShort (pre ++ (writeByteArray x ++ post)) pre.length = x.length := by
    have := readUnsignedShort_at pre (x ++ post) x.length pre.length hx rfl
    simpa [writeByteArray, List.append_assoc] using this
  have hdrop : (pre ++ (writeByteArray x ++ post)).drop (pre.length + 2) = x ++ post := by
    have h2 : (pre ++ writeUnsignedShort x.length).length = pre.length + 2 := by
      simp [writeUnsignedShort]
    calc (pre ++ (writeByteArray x ++ post)).drop (pre.length + 2)
        = ((pre ++ writeUnsignedShort x.length) ++ (x ++ post)).drop
            ((pre ++ writeUnsignedShort x.length).length + 0) := by
          simp [writeByteArray, List.append_assoc, h2]
      _ = (x ++ post).drop 0 := by rw [List.drop_append]
      _ = x ++ post := by simp
  simp only [readByteArray, hlen, hdrop]
  rw [List.take_left]

theorem stateBytes_length (s : Sha256State) : (stateBytes s).length = 32 := by
  simp [stateBytes]

/-- Every SHA-256 digest has exactly 32 bytes. -/
theorem sha256_length (m : Bytes) : (sha256 m).length = 32 := by
  rw [sha256]
  exact stateBytes_length _

theorem unblobAux_replicate (n : Nat) (k : Nat) (tail : Bytes) :
    unblobAux k (List.replicate n 1 ++ tail) = unblobAux (k + n) tail := by
  induction n generalizing k with
  | zero => simp [List.replicate]
  | succ m ih =>
      rw [List.replicate_succ, List.cons_append, unblobAux, ih]
      ring_nf

theorem unblob_blob (l rest : Bytes) :
    unblob (blob l ++ rest) = some (l, rest) := by
  rw [blob, unblob, List.append_assoc, List.cons_append, unblobAux_replicate]
  rw [unblobAux]
  simp [List.take_left, List.drop_left]

theorem subtleRsaDecrypt_rsaSeal (k : ImportedRsaKey) (m : Bytes) :
    subtleRsaDecrypt "RSA-OAEP" k (rsaSeal k m) = .ok m := by
  rw [subtleRsaDecrypt, rsaSeal]
  simp only [if_pos rfl, unblob_blob]
  simp

theorem subtleAesDecrypt_aesSeal (algName : String) (keyRaw iv m : Bytes)
    (h : algName = "AES-CBC" ∨ algName = "AES-GCM") :
    subtleAesDecrypt algName keyRaw iv (aesSeal algName keyRaw iv m) = .ok m := by
  rw [subtleAesDecrypt, aesSeal]
  simp only [if_pos h, unblob_blob]
  simp

theorem spkiDecode_spkiEncode (k : RsaPublicKey) : spkiDecode (spkiEncode k) = some k := by
  rw [spkiEncode, spkiDecode]
  have h1 : unblob (blob k.modulus ++ blob k.exponent) = some (k.modulus, blob k.exponent) :=
    unblob_blob _ _
  have h2 : unblob (blob k.exponent) = some (k.exponent, []) := by
    have := unblob_blob k.exponent []
    simpa using this
  rw [h1]
  simp [h2]

/-! ## Stepping lemmas for the sequential parsers -/

theorem blob_length (l : Bytes) : (blob l).length = 2 * l.length + 1 := by
  simp [blob]
  omega

theorem rsaSeal_length (k : ImportedRsaKey) (m : Bytes) :
    (rsaSeal k m).length =
      2 * k.key.modulus.length + 2 * k.key.exponent.length + m.length + 5 := by
  simp [rsaSeal, blob_length]
  omega

theorem spkiEncode_length (k : RsaPublicKey) :
    (spkiEncode k).length = 2 * k.modulus.length + 2 * k.exponent.length + 2 := by
  simp [spkiEncode, blob_length]
  omega

/-- `readUnsignedShort_at`, with the buffer given by a proved equation so the
list can be reassociated by `simp [List.append_assoc]`. -/
theorem readUnsignedShort_on (l pre post : Bytes) (v n : Nat) (hv : v < 65536)
    (hl : l = pre ++ (writeUnsignedShort v ++ post)) (hn : pre.length = n) :
    readUnsignedShort l n = v := by
  subst hl
  exact readUnsignedShort_at pre post v n hv hn

/-- `readByteArray_at`, with the buffer given by a proved equation. -/
theorem readByteArray_on (l pre x post : Bytes) (n : Nat) (hx : x.length < 65536)
    (hl : l = pre ++ (writeByteArray x ++ post)) (hn : pre.length = n) :
    readByteArray l n = (x, n + 2 + x.length) := by
  subst hl
  exact readByteArray_at pre x post n hx hn

/-- Dropping a known-length prefix. -/
theorem drop_on (l pre post : Bytes) (n : Nat) (hl : l = pre ++ post)
    (hn : pre.length = n) : l.drop n = post := by
  subst hl hn
  exact List.drop_left pre post

theorem parseRsaAesEnvelope_envelopeBytes
    (appId rIdx aIdx : Nat) (fp iv ek ed : Bytes)
    (rsaT : RsaTransformation) (aesT : AesTransformation)
    (happ : appId < 65536) (hr : rIdx < 65536) (ha : aIdx < 65536)
    (hfp : fp.length < 65536) (hiv : iv.length < 65536) (hek : ek.length < 65536)
    (hrt : RSA_TRANSFORMATIONS rIdx = some rsaT)
    (hat : AES_TRANSFORMATIONS.get? aIdx = some aesT) :
    Crypto.parseRsaAesEnvelope ⟨true, envelopeBytes appId rIdx fp aIdx iv ek ed⟩ =
      .ok ⟨appId, rsaT, fp, aesT, iv, ek, ed⟩ := by
  set E := envelopeBytes appId rIdx fp aIdx iv ek ed with hE
  have e1 : readUnsignedShort E 0 = appId :=
    readUnsignedShort_on E []
      (writeUnsignedShort rIdx ++ (writeByteArray fp ++ (writeUnsignedShort aIdx ++
        (writeByteArray iv ++ (writeByteArray ek ++ ed))))) appId 0 happ
      (by simp [hE, envelopeBytes, List.append_assoc]) rfl
  have e2 : readUnsignedShort E 2 = rIdx :=
    readUnsignedShort_on E (writeUnsignedShort appId)
      (writeByteArray fp ++ (writeUnsignedShort aIdx ++
        (writeByteArray iv ++ (writeByteArray ek ++ ed)))) rIdx 2 hr
      (by simp [hE, envelopeBytes, List.append_assoc]) rfl
  have e3 : readByteArray E 4 = (fp, 4 + 2 + fp.length) :=
    readByteArray_on E (writeUnsignedShort appId ++ writeUnsignedShort rIdx) fp
      (writeUnsignedShort aIdx ++ (writeByteArray iv ++ (writeByteArray ek ++ ed)))
      4 hfp (by simp [hE, envelopeBytes, List.append_assoc]) rfl
  have e4 : readUnsignedShort E (4 + 2 + fp.length) = aIdx :=
    readUnsignedShort_on E
      (writeUnsignedShort appId ++ writeUnsignedShort rIdx ++ writeByteArray fp)
      (writeByteArray iv ++ (writeByteArray ek ++ ed)) aIdx (4 + 2 + fp.length) ha
      (by simp [hE, envelopeBytes, List.append_assoc])
      (by simp only [List.length_append, writeByteArray_length,
            writeUnsignedShort_length]; omega)
  have e5 : readByteArray E (4 + 2 + fp.length + 2) =
      (iv, 4 + 2 + fp.length + 2 + 2 + iv.length) :=
    readByteArray_on E
      (writeUnsignedShort appId ++ writeUnsignedShort rIdx ++ writeByteArray fp ++
        writeUnsignedShort aIdx)
      iv (writeByteArray ek ++ ed) (4 + 2 + fp.length + 2) hiv
      (by simp [hE, envelopeBytes, List.append_assoc])
      (by simp only [List.length_append, writeByteArray_length,
            writeUnsignedShort_length]; omega)
  have e6 : readByteArray E (4 + 2 + fp.length + 2 + 2 + iv.length) =
      (ek, 4 + 2 + fp.length + 2 + 2 + iv.length + 2 + ek.length) :=
    readByteArray_on E
      (writeUnsignedShort appId ++ writeUnsignedShort rIdx ++ writeByteArray fp ++
        writeUnsignedShort aIdx ++ writeByteArray iv)
      ek ed (4 + 2 + fp.length + 2 + 2 + iv.length) hek
      (by simp [hE, envelopeBytes, List.append_assoc])
      (by simp only [List.length_append, writeByteArray_length,
            writeUnsignedShort_length]; omega)
  have e7 : E.drop (4 + 2 + fp.length + 2 + 2 + iv.length + 2 + ek.length) = ed :=
    drop_on E
      (writeUnsignedShort appId ++ writeUnsignedShort rIdx ++ writeByteArray fp ++
        writeUnsignedShort aIdx ++ writeByteArray iv ++ writeByteArray ek)
      ed (4 + 2 + fp.length + 2 + 2 + iv.length + 2 + ek.length)
      (by simp [hE, envelopeBytes, List.append_assoc])
      (by simp only [List.length_append, writeByteArray_length,
            writeUnsignedShort_length]; omega)
  simp only [Crypto.parseRsaAesEnvelope, e1, e2, e3, e4, e5, e6, e7, hrt, hat]
  rfl

theorem RSA_TRANSFORMATIONS_cases {i : Nat} {t : RsaTransformation}
    (h : RSA_TRANSFORMATIONS i = some t) : t = rsaOaepSha1 ∨ t = rsaOaepSha256 := by
  unfold RSA_TRANSFORMATIONS at h
  by_cases h1 : i = 1
  · simp [h1] at h
    exact Or.inl h.symm
  · by_cases h2 : i = 2
    · simp [h1, h2] at h
      exact Or.inr h.symm
    · simp [h1, h2] at h

/-- Every table entry's `algorithm.name` is the registered WebCrypto name. -/
theorem rsaEntry_algorithm_name {i : Nat} {t : RsaTransformation}
    (h : RSA_TRANSFORMATIONS i = some t) : t.algorithm.name = "RSA-OAEP" := by
  rcases RSA_TRANSFORMATIONS_cases h with h | h <;> subst h <;> rfl

/-- Every table entry's own `name` is the Java transformation string, which
is not a registered WebCrypto algorithm name. -/
theorem rsaEntry_name_not_registered {i : Nat} {t : RsaTransformation}
    (h : RSA_TRANSFORMATIONS i = some t) : t.name ≠ "RSA-OAEP" := by
  rcases RSA_TRANSFORMATIONS_cases h with h | h <;> subst h <;> decide

theorem rsaEntry_idx_lookup {i : Nat} {t : RsaTransformation}
    (h : RSA_TRANSFORMATIONS i = some t) : RSA_TRANSFORMATIONS t.idx = some t := by
  rcases RSA_TRANSFORMATIONS_cases h with h | h <;> subst h <;> rfl

theorem rsaEntry_idx_lt {i : Nat} {t : RsaTransformation}
    (h : RSA_TRANSFORMATIONS i = some t) : t.idx < 65536 := by
  rcases RSA_TRANSFORMATIONS_cases h with h | h <;> subst h <;> decide

theorem getFingerprint_length (k : RsaPublicKey) : (getFingerprint k).length = 32 :=
  sha256_length _

/-- Success shape of `encryptVaultData` when both configured indices are
known: the envelope bytes it emits. -/
theorem encryptVaultData_eq (payload : Bytes) (recipient : RsaPublicKey)
    (settings : EncryptionSettings) (aesKeyRaw iv : Bytes)
    (rsaT : RsaTransformation) (aesT : AesTransformation)
    (hrt : RSA_TRANSFORMATIONS settings.rsaTransformationIdx = some rsaT)
    (hat : AES_TRANSFORMATIONS.get? settings.aesTransformationIdx = some aesT) :
    encryptVaultData payload recipient settings aesKeyRaw iv =
      .ok ⟨true, envelopeBytes APPLICATION_IDS.ENCRYPTED_FILE
        settings.rsaTransformationIdx (getFingerprint recipient)
        settings.aesTransformationIdx iv
        (rsaSeal ⟨recipient, rsaT.algorithm.hash⟩ aesKeyRaw)
        (fileCipherBytes aesT aesKeyRaw iv payload)⟩ := by
  have hname : rsaT.algorithm.name = "RSA-OAEP" := rsaEntry_algorithm_name hrt
  have hat2 : AES_TRANSFORMATIONS[settings.aesTransformationIdx]? = some aesT := by
    rw [← List.get?_eq_getElem?]
    exact hat
  by_cases hg : aesT.algorithm = "AES-GCM" <;>
    simp [encryptVaultData, Crypto.parsePublicKey, hrt, hat2, hg,
      subtleRsaEncrypt, hname, subtleAesEncrypt, fileCipherBytes, envelopeBytes,
      Except.bind] <;>
    rfl

theorem exceptBind_ok {e a b : Type} (x : a) (f : a -> Except e b) :
    (Except.ok x : Except e a) >>= f = f x := rfl

theorem exceptBind_error {e a b : Type} (err : e) (f : a -> Except e b) :
    (Except.error err : Except e a) >>= f = Except.error err := rfl

/-- Success shape of `createKeyRequest` for a parseable envelope and a known
response-transformation index. -/
theorem createKeyRequest_eq (fileName : Bytes) (sealed : OmsText)
    (settings : EncryptionSettings) (eph : RsaPublicKey)
    (env : Crypto.RsaAesEnvelope) (rsaResp : RsaTransformation)
    (hparse : Crypto.parseRsaAesEnvelope sealed = .ok env)
    (hresp : RSA_TRANSFORMATIONS settings.rsaTransformationIdx = some rsaResp) :
    createKeyRequest fileName sealed settings eph =
      .ok ⟨⟨eph, "SHA-256"⟩, env,
        ⟨true, requestBytes fileName (spkiEncode eph) env.fingerprint
          env.rsaTransformation.idx rsaResp.idx env.encryptedAesKey⟩⟩ := by
  unfold createKeyRequest
  rw [hparse]
  simp only [exceptBind_ok]
  rw [hresp]
  rfl

/-- The simulated companion on a well-formed request wrapping
`rsaSeal ⟨recipient, hash⟩ aesKeyRaw`: it answers with the key re-wrapped for
the ephemeral public key. -/
theorem companionRespond_eq (fileName fp aesKeyRaw : Bytes)
    (fileIdx respIdx : Nat) (recipient eph : RsaPublicKey)
    (tFile tResp : RsaTransformation)
    (hfn : fileName.length < 65536)
    (hspki : (spkiEncode eph).length < 65536)
    (hfp : fp.length < 65536)
    (hek : (rsaSeal ⟨recipient, tFile.algorithm.hash⟩ aesKeyRaw).length < 65536)
    (hfi : fileIdx < 65536) (hri : respIdx < 65536)
    (htf : RSA_TRANSFORMATIONS fileIdx = some tFile)
    (htr : RSA_TRANSFORMATIONS respIdx = some tResp) :
    companionRespond ⟨true, requestBytes fileName (spkiEncode eph) fp fileIdx respIdx
        (rsaSeal ⟨recipient, tFile.algorithm.hash⟩ aesKeyRaw)⟩ recipient =
      .ok (writeUnsignedShort APPLICATION_IDS.KEY_RESPONSE ++
        writeByteArray (rsaSeal ⟨eph, tResp.algorithm.hash⟩ aesKeyRaw)) := by
  set spki := spkiEncode eph with hspkiDef
  set ek := rsaSeal ⟨recipient, tFile.algorithm.hash⟩ aesKeyRaw with hekDef
  set B := requestBytes fileName spki fp fileIdx respIdx ek with hB
  have e1 : readUnsignedShort B 0 = APPLICATION_IDS.KEY_REQUEST :=
    readUnsignedShort_on B []
      (writeByteArray fileName ++ (writeByteArray spki ++ (writeByteArray fp ++
        (writeUnsignedShort fileIdx ++ (writeUnsignedShort respIdx ++ writeByteArray ek)))))
      APPLICATION_IDS.KEY_REQUEST 0 (by decide)
      (by simp [hB, requestBytes, writeString, List.append_assoc]) rfl
  have e2 : readByteArray B 2 = (fileName, 2 + 2 + fileName.length) :=
    readByteArray_on B (writeUnsignedShort APPLICATION_IDS.KEY_REQUEST) fileName
      (writeByteArray spki ++ (writeByteArray fp ++
        (writeUnsignedShort fileIdx ++ (writeUnsignedShort respIdx ++ writeByteArray ek))))
      2 hfn (by simp [hB, requestBytes, writeString, List.append_assoc]) rfl
  have e3 : readByteArray B (2 + 2 + fileName.length) =
      (spki, 2 + 2 + fileName.length + 2 + spki.length) :=
    readByteArray_on B
      (writeUnsignedShort APPLICATION_IDS.KEY_REQUEST ++ writeByteArray fileName) spki
      (writeByteArray fp ++
        (writeUnsignedShort fileIdx ++ (writeUnsignedShort respIdx ++ writeByteArray ek)))
      (2 + 2 + fileName.length) hspki
      (by simp [hB, requestBytes, writeString, List.append_assoc])
      (by simp only [List.length_append, writeByteArray_length,
            writeUnsignedShort_length]; omega)
  have e4 : readByteArray B (2 + 2 + fileName.length + 2 + spki.length) =
      (fp, 2 + 2 + fileName.length + 2 + spki.length + 2 + fp.length) :=
    readByteArray_on B
      (writeUnsignedShort APPLICATION_IDS.KEY_REQUEST ++ writeByteArray fileName ++
        writeByteArray spki) fp
      (writeUnsignedShort fileIdx ++ (writeUnsignedShort respIdx ++ writeByteArray ek))
      (2 + 2 + fileName.length + 2 + spki.length) hfp
      (by simp [hB, requestBytes, writeString, List.append_assoc])
      (by simp only [List.length_append, writeByteArray_length,
            writeUnsignedShort_length]; omega)
  have e5 : readUnsignedShort B (2 + 2 + fileName.length + 2 + spki.length + 2 + fp.length) =
      fileIdx :=
    readUnsignedShort_on B
      (writeUnsignedShort APPLICATION_IDS.KEY_REQUEST ++ writeByteArray fileName ++
        writeByteArray spki ++ writeByteArray fp)
      (writeUnsignedShort respIdx ++ writeByteArray ek) fileIdx
      (2 + 2 + fileName.length + 2 + spki.length + 2 + fp.length) hfi
      (by simp [hB, requestBytes, writeString, List.append_assoc])
      (by simp only [List.length_append, writeByteArray_length,
            writeUnsignedShort_length]; omega)
  have e6 : readUnsignedShort B
      (2 + 2 + fileName.length + 2 + spki.length + 2 + fp.length + 2) = respIdx :=
    readUnsignedShort_on B
      (writeUnsignedShort APPLICATION_IDS.KEY_REQUEST ++ writeByteArray fileName ++
        writeByteArray spki ++ writeByteArray fp ++ writeUnsignedShort fileIdx)
      (writeByteArray ek) respIdx
      (2 + 2 + fileName.length + 2 + spki.length + 2 + fp.length + 2) hri
      (by simp [hB, requestBytes, writeString, List.append_assoc])
      (by simp only [List.length_append, writeByteArray_length,
            writeUnsignedShort_length]; omega)
  have e7 : readByteArray B
      (2 + 2 + fileName.length + 2 + spki.length + 2 + fp.length + 2 + 2) =
      (ek, 2 + 2 + fileName.length + 2 + spki.length + 2 + fp.length + 2 + 2 + 2 + ek.length) :=
    readByteArray_on B
      (writeUnsignedShort APPLICATION_IDS.KEY_REQUEST ++ writeByteArray fileName ++
        writeByteArray spki ++ writeByteArray fp ++ writeUnsignedShort fileIdx ++
        writeUnsignedShort respIdx)
      ek [] (2 + 2 + fileName.length + 2 + spki.length + 2 + fp.length + 2 + 2) hek
      (by simp [hB, requestBytes, writeString, List.append_assoc])
      (by simp only [List.length_append, writeByteArray_length,
            writeUnsignedShort_length]; omega)
  have hdec : subtleRsaDecrypt "RSA-OAEP" ⟨recipient, tFile.algorithm.hash⟩ ek
      = .ok aesKeyRaw := by
    rw [hekDef]
    exact subtleRsaDecrypt_rsaSeal _ _
  unfold companionRespond
  simp [e1, e2, e3, e4, e5, e6, e7, htf, htr, hdec, hspkiDef,
    spkiDecode_spkiEncode, subtleRsaEncrypt, exceptBind_ok, exceptBind_error]

/-- `processKeyResponse` on any well-formed `KEY_RESPONSE` rejects with
`NotSupportedError`: the algorithm object it passes to `subtle.decrypt` is
the transformation record, whose `name` is the Java transformation string. -/
theorem processKeyResponse_notSupported (w : Bytes) (ctx : KeyRequestContext)
    (settings : EncryptionSettings) (rsaT : RsaTransformation)
    (hw : w.length < 65536)
    (hrt : RSA_TRANSFORMATIONS settings.rsaTransformationIdx = some rsaT) :
    processKeyResponse
      (writeUnsignedShort APPLICATION_IDS.KEY_RESPONSE ++ writeByteArray w)
      ctx settings = .error .notSupportedError := by
  have e1 : readUnsignedShort
      (writeUnsignedShort APPLICATION_IDS.KEY_RESPONSE ++ writeByteArray w) 0 =
      APPLICATION_IDS.KEY_RESPONSE :=
    readUnsignedShort_on _ [] (writeByteArray w) APPLICATION_IDS.KEY_RESPONSE 0
      (by decide) (by simp [List.append_assoc]) rfl
  have e2 : readByteArray
      (writeUnsignedShort APPLICATION_IDS.KEY_RESPONSE ++ writeByteArray w) 2 =
      (w, 2 + 2 + w.length) :=
    readByteArray_on _ (writeUnsignedShort APPLICATION_IDS.KEY_RESPONSE) w [] 2 hw
      (by simp [List.append_assoc]) rfl
  have hname : rsaT.name ≠ "RSA-OAEP" := rsaEntry_name_not_registered hrt
  unfold processKeyResponse
  simp [e1, e2, hrt, subtleRsaDecrypt, hname, exceptBind_error]

/-- C1: the full request→(simulated companion)→response flow always fails
with `NotSupportedError`, for every payload, key pair and supported
settings. -/
theorem handshakeFlow_notSupportedError
    (payload : Bytes) (recipient ephemeralKey : RsaPublicKey)
    (settings : EncryptionSettings) (aesKeyRaw iv fileName : Bytes)
    (hidx : settings.rsaTransformationIdx = 1 ∨ settings.rsaTransformationIdx = 2)
    (haes : settings.aesTransformationIdx < 3)
    (hmod : recipient.modulus.length ≤ 1024) (hexp : recipient.exponent.length ≤ 64)
    (hkey : aesKeyRaw.length ≤ 64) (hiv : iv.length ≤ 16)
    (hfile : fileName.length < 65536)
    (hemod : ephemeralKey.modulus.length ≤ 1024)
    (heexp : ephemeralKey.exponent.length ≤ 64) :
    handshakeFlow payload recipient settings aesKeyRaw iv fileName ephemeralKey =
      .error .notSupportedError := by
  obtain ⟨rsaT, hrt⟩ : ∃ t, RSA_TRANSFORMATIONS settings.rsaTransformationIdx = some t := by
    rcases hidx with h | h <;> rw [h] <;> exact ⟨_, rfl⟩
  obtain ⟨aesT, hat⟩ : ∃ t, AES_TRANSFORMATIONS.get? settings.aesTransformationIdx = some t := by
    have h3 : settings.aesTransformationIdx = 0 ∨ settings.aesTransformationIdx = 1 ∨
        settings.aesTransformationIdx = 2 := by omega
    rcases h3 with h | h | h <;> rw [h] <;> exact ⟨_, rfl⟩
  have hekLen : (rsaSeal ⟨recipient, rsaT.algorithm.hash⟩ aesKeyRaw).length < 65536 := by
    rw [rsaSeal_length]
    dsimp only
    omega
  have hWrapLen : (rsaSeal ⟨ephemeralKey, rsaT.algorithm.hash⟩ aesKeyRaw).length < 65536 := by
    rw [rsaSeal_length]
    dsimp only
    omega
  have hspkiLen : (spkiEncode ephemeralKey).length < 65536 := by
    rw [spkiEncode_length]
    omega
  have hfpLen : (getFingerprint recipient).length < 65536 := by
    rw [getFingerprint_length]
    omega
  have hidxLt : settings.rsaTransformationIdx < 65536 := by
    rcases hidx with h | h <;> omega
  have h1 := encryptVaultData_eq payload recipient settings aesKeyRaw iv rsaT aesT hrt hat
  have h2 := parseRsaAesEnvelope_envelopeBytes APPLICATION_IDS.ENCRYPTED_FILE
    settings.rsaTransformationIdx settings.aesTransformationIdx
    (getFingerprint recipient) iv (rsaSeal ⟨recipient, rsaT.algorithm.hash⟩ aesKeyRaw)
    (fileCipherBytes aesT aesKeyRaw iv payload) rsaT aesT
    (by decide) hidxLt (by omega) hfpLen (by omega) hekLen hrt hat
  have h3 := createKeyRequest_eq fileName _ settings ephemeralKey _ rsaT h2 hrt
  have h4 := companionRespond_eq fileName (getFingerprint recipient) aesKeyRaw
    rsaT.idx rsaT.idx recipient ephemeralKey rsaT rsaT
    hfile hspkiLen hfpLen hekLen (rsaEntry_idx_lt hrt) (rsaEntry_idx_lt hrt)
    (rsaEntry_idx_lookup hrt) (rsaEntry_idx_lookup hrt)
  have h5 := processKeyResponse_notSupported
    (rsaSeal ⟨ephemeralKey, rsaT.algorithm.hash⟩ aesKeyRaw)
    ⟨⟨ephemeralKey, "SHA-256"⟩,
      ⟨APPLICATION_IDS.ENCRYPTED_FILE, rsaT, getFingerprint recipient, aesT, iv,
        rsaSeal ⟨recipient, rsaT.algorithm.hash⟩ aesKeyRaw,
        fileCipherBytes aesT aesKeyRaw iv payload⟩,
      ⟨true, requestBytes fileName (spkiEncode ephemeralKey) (getFingerprint recipient)
        rsaT.idx rsaT.idx (rsaSeal ⟨recipient, rsaT.algorithm.hash⟩ aesKeyRaw)⟩⟩
    settings rsaT hWrapLen hrt
  unfold handshakeFlow
  rw [h1]
  simp only [exceptBind_ok]
  rw [h3]
  simp only [exceptBind_ok]
  rw [h4]
  simp only [exceptBind_ok]
  exact h5

theorem getD_replicate_lt (p i v : Nat) (h : i < p) :
    (List.replicate p v).getD i 0 = v := by
  rw [List.getD_eq_getElem _ _ (by simpa using h)]
  exact List.getElem_replicate _ _

/-- Stripping the padding that `addPkcs7Padding` added recovers the data. -/
theorem removePkcs7_addPkcs7 (m : Bytes) :
    removePkcs7Padding (addPkcs7Padding m 16) = .ok m := by
  have hp1 : 1 ≤ 16 - m.length % 16 := by omega
  have hp2 : 16 - m.length % 16 ≤ 16 := by omega
  set p := 16 - m.length % 16 with hp
  have hlen : (addPkcs7Padding m 16).length = m.length + p := by
    simp [addPkcs7Padding]
  have hlast : (addPkcs7Padding m 16).getD (m.length + p - 1) 0 = p := by
    rw [addPkcs7Padding]
    simp only [← hp]
    rw [List.getD_append_right _ _ _ _ (by omega)]
    exact getD_replicate_lt p (m.length + p - 1 - m.length) p (by omega)
  have htake : (addPkcs7Padding m 16).take m.length = m := by
    rw [addPkcs7Padding]
    simp only [← hp]
    exact List.take_left m _
  rw [removePkcs7Padding]
  rw [if_neg (by omega)]
  simp only [hlen, hlast]
  rw [if_neg (by omega)]
  have h2 : m.length + p - p = m.length := by omega
  rw [h2, htake]

/-- Decrypting the payload ciphertext that the file-encryption branch
produced, with the matching key and IV, recovers the payload. -/
theorem aesDecryptData_fileCipherBytes (aesT : AesTransformation)
    (akr iv payload : Bytes) :
    Crypto.aesDecryptData aesT iv akr (fileCipherBytes aesT akr iv payload) =
      .ok payload := by
  by_cases hg : aesT.algorithm = "AES-GCM"
  · simp [Crypto.aesDecryptData, fileCipherBytes, hg,
      subtleAesDecrypt_aesSeal "AES-GCM" akr iv payload (Or.inr rfl)]
  · simp [Crypto.aesDecryptData, fileCipherBytes, hg,
      subtleAesDecrypt_aesSeal "AES-CBC" akr iv (addPkcs7Padding payload 16) (Or.inl rfl),
      removePkcs7_addPkcs7, exceptBind_ok]

/-- With the algorithm argument repaired, the full handshake recovers the
original payload (settings index 2, the SHA-256 default). -/
theorem handshakeFlowFixed_roundtrip
    (payload : Bytes) (recipient ephemeralKey : RsaPublicKey)
    (settings : EncryptionSettings) (aesKeyRaw iv fileName : Bytes)
    (hidx : settings.rsaTransformationIdx = 2)
    (haes : settings.aesTransformationIdx < 3)
    (hmod : recipient.modulus.length ≤ 1024) (hexp : recipient.exponent.length ≤ 64)
    (hkey : aesKeyRaw.length ≤ 64) (hiv : iv.length ≤ 16)
    (hfile : fileName.length < 65536)
    (hemod : ephemeralKey.modulus.length ≤ 1024)
    (heexp : ephemeralKey.exponent.length ≤ 64) :
    handshakeFlowFixed payload recipient settings aesKeyRaw iv fileName ephemeralKey =
      .ok payload := by
  have hrt : RSA_TRANSFORMATIONS settings.rsaTransformationIdx = some rsaOaepSha256 := by
    rw [hidx]
    rfl
  obtain ⟨aesT, hat⟩ : ∃ t, AES_TRANSFORMATIONS.get? settings.aesTransformationIdx = some t := by
    have h3 : settings.aesTransformationIdx = 0 ∨ settings.aesTransformationIdx = 1 ∨
        settings.aesTransformationIdx = 2 := by omega
    rcases h3 with h | h | h <;> rw [h] <;> exact ⟨_, rfl⟩
  have hekLen : (rsaSeal ⟨recipient, rsaOaepSha256.algorithm.hash⟩ aesKeyRaw).length < 65536 := by
    rw [rsaSeal_length]
    dsimp only
    omega
  have hWrapLen :
      (rsaSeal ⟨ephemeralKey, rsaOaepSha256.algorithm.hash⟩ aesKeyRaw).length < 65536 := by
    rw [rsaSeal_length]
    dsimp only
    omega
  have hspkiLen : (spkiEncode ephemeralKey).length < 65536 := by
    rw [spkiEncode_length]
    omega
  have hfpLen : (getFingerprint recipient).length < 65536 := by
    rw [getFingerprint_length]
    omega
  have hidxLt : settings.rsaTransformationIdx < 65536 := by omega
  have h1 := encryptVaultData_eq payload recipient settings aesKeyRaw iv
    rsaOaepSha256 aesT hrt hat
  have h2 := parseRsaAesEnvelope_envelopeBytes APPLICATION_IDS.ENCRYPTED_FILE
    settings.rsaTransformationIdx settings.aesTransformationIdx
    (getFingerprint recipient) iv (rsaSeal ⟨recipient, rsaOaepSha256.algorithm.hash⟩ aesKeyRaw)
    (fileCipherBytes aesT aesKeyRaw iv payload) rsaOaepSha256 aesT
    (by decide) hidxLt (by omega) hfpLen (by omega) hekLen hrt hat
  have h3 := createKeyRequest_eq fileName _ settings ephemeralKey _ rsaOaepSha256 h2 hrt
  have h4 := companionRespond_eq fileName (getFingerprint recipient) aesKeyRaw
    rsaOaepSha256.idx rsaOaepSha256.idx recipient ephemeralKey rsaOaepSha256 rsaOaepSha256
    hfile hspkiLen hfpLen hekLen (rsaEntry_idx_lt hrt) (rsaEntry_idx_lt hrt)
    (rsaEntry_idx_lookup hrt) (rsaEntry_idx_lookup hrt)
  have h5 : processKeyResponseFixed
      (writeUnsignedShort APPLICATION_IDS.KEY_RESPONSE ++
        writeByteArray (rsaSeal ⟨ephemeralKey, rsaOaepSha256.algorithm.hash⟩ aesKeyRaw))
      ⟨⟨ephemeralKey, "SHA-256"⟩,
        ⟨APPLICATION_IDS.ENCRYPTED_FILE, rsaOaepSha256, getFingerprint recipient, aesT, iv,
          rsaSeal ⟨recipient, rsaOaepSha256.algorithm.hash⟩ aesKeyRaw,
          fileCipherBytes aesT aesKeyRaw iv payload⟩,
        ⟨true, requestBytes fileName (spkiEncode ephemeralKey) (getFingerprint recipient)
          rsaOaepSha256.idx rsaOaepSha256.idx
          (rsaSeal ⟨recipient, rsaOaepSha256.algorithm.hash⟩ aesKeyRaw)⟩⟩
      settings = .ok payload := by
    unfold processKeyResponseFixed
    have e1 : readUnsignedShort
        (writeUnsignedShort APPLICATION_IDS.KEY_RESPONSE ++
          writeByteArray (rsaSeal ⟨ephemeralKey, "SHA-256"⟩ aesKeyRaw)) 0 =
        APPLICATION_IDS.KEY_RESPONSE :=
      readUnsignedShort_on _ []
        (writeByteArray (rsaSeal ⟨ephemeralKey, "SHA-256"⟩ aesKeyRaw))
        APPLICATION_IDS.KEY_RESPONSE 0 (by decide)
        (by simp [List.append_assoc]) rfl
    have e2 : readByteArray
        (writeUnsignedShort APPLICATION_IDS.KEY_RESPONSE ++
          writeByteArray (rsaSeal ⟨ephemeralKey, "SHA-256"⟩ aesKeyRaw)) 2 =
        (rsaSeal ⟨ephemeralKey, "SHA-256"⟩ aesKeyRaw,
          2 + 2 + (rsaSeal ⟨ephemeralKey, "SHA-256"⟩ aesKeyRaw).length) :=
      readByteArray_on _ (writeUnsignedShort APPLICATION_IDS.KEY_RESPONSE)
        (rsaSeal ⟨ephemeralKey, "SHA-256"⟩ aesKeyRaw) [] 2 hWrapLen
        (by simp [List.append_assoc]) rfl
    simp [e1, e2, hrt, rsaOaepSha256,
      subtleRsaDecrypt_rsaSeal ⟨ephemeralKey, "SHA-256"⟩ aesKeyRaw,
      aesDecryptData_fileCipherBytes, exceptBind_ok]
  unfold handshakeFlowFixed
  rw [h1]
  simp only [exceptBind_ok]
  rw [h3]
  simp only [exceptBind_ok]
  rw [h4]
  simp only [exceptBind_ok]
  exact h5

/-- C9: `processKeyResponse` rejects every response whose leading 2-byte
application id is not `KEY_RESPONSE` (5), with the application-id error —
thrown at the tag check, before the key unwrap or the payload decryption
(which would report crypto errors, not this one). -/
theorem processKeyResponse_rejects_wrong_tag (resp : Bytes)
    (ctx : KeyRequestContext) (settings : EncryptionSettings)
    (h : readUnsignedShort resp 0 ≠ APPLICATION_IDS.KEY_RESPONSE) :
    processKeyResponse resp ctx settings =
      .error (.invalidApplicationId APPLICATION_IDS.KEY_RESPONSE
        (readUnsignedShort resp 0)) := by
  unfold processKeyResponse
  simp [h]

theorem processKeyResponse_rejects_wrong_tag_witness :
    processKeyResponse [0, 4] exampleContext exampleSettings =
      .error (.invalidApplicationId APPLICATION_IDS.KEY_RESPONSE
        (readUnsignedShort [0, 4] 0)) :=
  processKeyResponse_rejects_wrong_tag [0, 4] exampleContext exampleSettings
    (by decide)

/-- C10: invoked outside the pin-locked state, `unlockPin` returns `false`
immediately; the early return leaves the state and the vault data unchanged
and touches no key derivation or decryption. -/
theorem unlockPin_outside_pinLocked (input : Bytes) (st : VaultState)
    (d : VaultData) (h : st.isPinLocked = false) :
    unlockPin input st d = (false, st, d) := by
  cases st with
  | pinLocked k s i enc m => simp [VaultState.isPinLocked] at h
  | loading => rfl
  | encrypted x => rfl
  | ready => rfl

theorem unlockPin_outside_pinLocked_witness :
    unlockPin [1] VaultState.ready [] = (false, VaultState.ready, []) :=
  unlockPin_outside_pinLocked [1] VaultState.ready [] rfl

/-- C5: with a public key configured, a failed `encryptVaultData` makes the
save effect rethrow; nothing — in particular not the plain-JSON snapshot —
is written to storage on that branch. -/
theorem saveVault_encryption_failure_throws (pk jsonData : Bytes) (e : JsError)
    (hpk : pk ≠ []) :
    saveVaultEffect pk (.error e) jsonData =
      .error (.thrown "Failed to encrypt vault, saving as plain JSON")
    ∧ ∀ v : StoredValue, saveVaultEffect pk (.error e) jsonData ≠ .ok v := by
  constructor
  · simp [saveVaultEffect, hpk]
  · intro v
    simp [saveVaultEffect, hpk]

theorem saveVault_encryption_failure_throws_witness :
    saveVaultEffect [1] (.error .operationError) [2] =
      .error (.thrown "Failed to encrypt vault, saving as plain JSON")
    ∧ ∀ v : StoredValue, saveVaultEffect [1] (.error .operationError) [2] ≠ .ok v :=
  saveVault_encryption_failure_throws [1] [2] .operationError (by decide)

/-- C2 counterexample: the legacy `processKeyResponse` accepts a response
declaring the unknown RSA-transformation index 99 — the `?? RSA_TRANSFORMATIONS[2]`
fallback silently treats it as index 2 and the call succeeds, contradicting
the claim that an unknown index is a hard error on ingestion. -/
theorem processKeyResponseV1_unknown_index_accepted :
    RSA_TRANSFORMATIONS 99 = none ∧
    KeyRequestV1.processKeyResponse exampleResponseIdx99 exampleContextV1 =
      .ok [97, 98, 99] := by
  constructor
  · rfl
  · rfl

/-- C2 amended: `parseRsaAesEnvelope` does fail hard on an unknown RSA index
(via the `TypeError` of the undefined-entry dereference), but the legacy
`processKeyResponse` replaces an unknown declared index by the default entry
2 and proceeds exactly as if the response had declared index 2. -/
theorem unknown_rsa_index_ingestion_policy :
    (∀ t : OmsText, t.tagged = true →
      RSA_TRANSFORMATIONS (readUnsignedShort t.body 2) = none →
      Crypto.parseRsaAesEnvelope t = .error .typeErrorUndefined)
    ∧ (∀ (i : Nat) (ek : Bytes) (ctx : KeyRequestV1.KeyRequestContext),
        i < 65536 → ek.length < 65536 → RSA_TRANSFORMATIONS i = none →
        KeyRequestV1.processKeyResponse
          (writeUnsignedShort 5 ++ (writeUnsignedShort i ++ writeByteArray ek)) ctx =
        KeyRequestV1.processKeyResponse
          (writeUnsignedShort 5 ++ (writeUnsignedShort 2 ++ writeByteArray ek)) ctx) := by
  constructor
  · intro t ht hnone
    unfold Crypto.parseRsaAesEnvelope
    simp [ht, hnone]
  · intro i ek ctx hi hek hnone
    have eL0 : readUnsignedShort
        (writeUnsignedShort 5 ++ (writeUnsignedShort i ++ writeByteArray ek)) 0 = 5 :=
      readUnsignedShort_on _ [] (writeUnsignedShort i ++ writeByteArray ek) 5 0
        (by omega) (by simp [List.append_assoc]) rfl
    have eL2 : readUnsignedShort
        (writeUnsignedShort 5 ++ (writeUnsignedShort i ++ writeByteArray ek)) 2 = i :=
      readUnsignedShort_on _ (writeUnsignedShort 5) (writeByteArray ek) i 2 hi
        (by simp [List.append_assoc]) rfl
    have eL4 : readByteArray
        (writeUnsignedShort 5 ++ (writeUnsignedShort i ++ writeByteArray ek)) 4 =
        (ek, 4 + 2 + ek.length) :=
      readByteArray_on _ (writeUnsignedShort 5 ++ writeUnsignedShort i) ek [] 4 hek
        (by simp [List.append_assoc]) (by simp [writeUnsignedShort])
    have eR0 : readUnsignedShort
        (writeUnsignedShort 5 ++ (writeUnsignedShort 2 ++ writeByteArray ek)) 0 = 5 :=
      readUnsignedShort_on _ [] (writeUnsignedShort 2 ++ writeByteArray ek) 5 0
        (by omega) (by simp [List.append_assoc]) rfl
    have eR2 : readUnsignedShort
        (writeUnsignedShort 5 ++ (writeUnsignedShort 2 ++ writeByteArray ek)) 2 = 2 :=
      readUnsignedShort_on _ (writeUnsignedShort 5) (writeByteArray ek) 2 2
        (by omega) (by simp [List.append_assoc]) rfl
    have eR4 : readByteArray
        (writeUnsignedShort 5 ++ (writeUnsignedShort 2 ++ writeByteArray ek)) 4 =
        (ek, 4 + 2 + ek.length) :=
      readByteArray_on _ (writeUnsignedShort 5 ++ writeUnsignedShort 2) ek [] 4 hek
        (by simp [List.append_assoc]) (by simp [writeUnsignedShort])
    have h2v : RSA_TRANSFORMATIONS 2 = some rsaOaepSha256 := rfl
    unfold KeyRequestV1.processKeyResponse
    simp [eL0, eL2, eL4, eR0, eR2, eR4, hnone, h2v, APPLICATION_IDS.KEY_RESPONSE]

theorem unknown_rsa_index_ingestion_policy_witness :
    Crypto.parseRsaAesEnvelope ⟨true, [9]⟩ = .error .typeErrorUndefined
    ∧ KeyRequestV1.processKeyResponse
        (writeUnsignedShort 5 ++ (writeUnsignedShort 77 ++ writeByteArray [1]))
        exampleContextV1 =
      KeyRequestV1.processKeyResponse
        (writeUnsignedShort 5 ++ (writeUnsignedShort 2 ++ writeByteArray [1]))
        exampleContextV1 :=
  ⟨unknown_rsa_index_ingestion_policy.1 ⟨true, [9]⟩ rfl (by decide),
   unknown_rsa_index_ingestion_policy.2 77 [1] exampleContextV1 (by decide)
     (by decide) (by decide)⟩

/-- C3 counterexample: `readByteArray` reads a declared length of 5 from a
2-byte buffer and returns successfully with a clamped slice and an offset
past the end — there is no bounds check and no decode error; and decoding a
wrapped 1-byte body fails with the `TypeError` of an undefined-entry
dereference, not a typed decode error. -/
theorem decode_no_bounds_check_counterexample :
    readByteArray [0, 5] 0 = ([], 7)
    ∧ Crypto.parseRsaAesEnvelope ⟨true, [0]⟩ = .error .typeErrorUndefined := by
  constructor
  · rfl
  · rfl

/-- C3 amended: the decoder performs no bounds checks — a length field
larger than the remaining buffer yields the clamped remainder and an
offset past the end, silently; a wrapped 1-byte body still fails, but with
the `TypeError` raised by dereferencing the undefined transformation entry,
not with a typed decode error. -/
theorem decode_truncation_behavior :
    (∀ b : Nat, Crypto.parseRsaAesEnvelope ⟨true, [b]⟩ = .error .typeErrorUndefined)
    ∧ (∀ (n : Nat) (rest : Bytes), n < 65536 → rest.length < n →
        readByteArray (writeUnsignedShort n ++ rest) 0 = (rest, 2 + n)) := by
  constructor
  · intro b
    unfold Crypto.parseRsaAesEnvelope
    simp [readUnsignedShort, RSA_TRANSFORMATIONS]
  · intro n rest hn hrest
    have h0 : readUnsignedShort (writeUnsignedShort n ++ rest) 0 = n :=
      readUnsignedShort_on _ [] rest n 0 hn (by simp [List.append_assoc]) rfl
    have hdrop : (writeUnsignedShort n ++ rest).drop 2 = rest := by
      simp [writeUnsignedShort]
    simp only [readByteArray, h0, hdrop]
    rw [List.take_of_length_le (Nat.le_of_lt hrest)]

theorem decode_truncation_behavior_witness :
    Crypto.parseRsaAesEnvelope ⟨true, [7]⟩ = .error .typeErrorUndefined
    ∧ readByteArray (writeUnsignedShort 5 ++ [1]) 0 = ([1], 7) := by
  constructor
  · exact decode_truncation_behavior.1 7
  · have h := decode_truncation_behavior.2 5 [1] (by decide) (by decide)
    simpa using h

/-- C8 counterexample: a final pad byte of 0 lies outside `[1,16]`, yet
`removePkcs7Padding` accepts the buffer and returns it unchanged (the pad
byte is retained), so the guard is not "exactly outside [1,16]". -/
theorem removePkcs7Padding_zero_pad_counterexample :
    removePkcs7Padding [0] = .ok [0] ∧ ¬ 1 ≤ (0 : Nat) := by
  constructor
  · rfl
  · decide

/-- C8 amended: on a non-empty buffer `removePkcs7Padding` throws exactly
when the final byte exceeds 16 or exceeds the buffer length (a zero pad
byte passes and strips nothing); otherwise it strips that many bytes. -/
theorem removePkcs7Padding_policy (data : Bytes) (h : data ≠ []) :
    (removePkcs7Padding data = .error .invalidPadding ↔
      (16 < data.getD (data.length - 1) 0 ∨
        data.length < data.getD (data.length - 1) 0))
    ∧ (removePkcs7Padding data ≠ .error .invalidPadding →
        removePkcs7Padding data =
          .ok (data.take (data.length - data.getD (data.length - 1) 0))) := by
  have hlen : ¬ data.length = 0 := by simpa [List.length_eq_zero] using h
  by_cases hc : 16 < data.getD (data.length - 1) 0 ∨
      data.length < data.getD (data.length - 1) 0
  · have hres : removePkcs7Padding data = .error .invalidPadding := by
      simp only [removePkcs7Padding]
      rw [if_neg hlen, if_pos hc]
    constructor
    · simp only [hres, true_iff]
      simpa using hc
    · intro hne
      exact absurd hres hne
  · have hres : removePkcs7Padding data =
        .ok (data.take (data.length - data.getD (data.length - 1) 0)) := by
      simp only [removePkcs7Padding]
      rw [if_neg hlen, if_neg hc]
    constructor
    · simp only [hres]
      simp only [iff_false_intro (by simp : (Except.ok (α := Bytes)
        (List.take (List.length data - List.getD data (List.length data - 1) 0) data) ≠
        Except.error (ε := JsError) JsError.invalidPadding))]
      simpa using hc
    · intro hne
      exact hres

theorem removePkcs7Padding_policy_witness :
    removePkcs7Padding [0, 17] = .error .invalidPadding :=
  ((removePkcs7Padding_policy [0, 17] (by decide)).1).mpr (by decide)

/-- C4: the fingerprint is deterministic, always exactly 32 bytes, and is
SHA-256 over the sign-extended modulus followed by the sign-extended
exponent; a modulus whose leading byte has the high bit set contributes one
byte more to the hashed input than an equal-length one that does not. -/
theorem getFingerprint_spec :
    (∀ k : RsaPublicKey,
      getFingerprint k = getFingerprint k
      ∧ (getFingerprint k).length = 32
      ∧ getFingerprint k =
          sha256 (toBigIntegerBytes k.modulus ++ toBigIntegerBytes k.exponent))
    ∧ (∀ m1 m2 e : Bytes, m1.length = m2.length →
        m1.getD 0 0 &&& 128 ≠ 0 → m2.getD 0 0 &&& 128 = 0 →
        (fingerprintInput ⟨m1, e⟩).length = (fingerprintInput ⟨m2, e⟩).length + 1) := by
  constructor
  · intro k
    exact ⟨rfl, getFingerprint_length k, rfl⟩
  · intro m1 m2 e hlen h1 h2
    have hm1 : m1 ≠ [] := by
      intro hnil
      subst hnil
      simp at h1
    have ht1 : toBigIntegerBytes m1 = 0 :: m1 := by
      unfold toBigIntegerBytes
      rw [if_pos ⟨List.length_pos.mpr hm1, h1⟩]
    have ht2 : toBigIntegerBytes m2 = m2 := by
      unfold toBigIntegerBytes
      rw [if_neg]
      intro hx
      exact hx.2 h2
    simp [fingerprintInput, ht1, ht2, hlen]

theorem getFingerprint_spec_witness :
    (getFingerprint ⟨[128], [1]⟩).length = 32
    ∧ (fingerprintInput ⟨[128], [1, 0, 1]⟩).length =
        (fingerprintInput ⟨[1], [1, 0, 1]⟩).length + 1 :=
  ⟨(getFingerprint_spec.1 ⟨[128], [1]⟩).2.1,
   getFingerprint_spec.2 [128] [1] [1, 0, 1] rfl (by decide) (by decide)⟩

theorem handshakeFlow_notSupportedError_witness :
    handshakeFlow [104, 105] exampleRecipientKey exampleSettings [7]
      (List.replicate 16 0) [118] exampleEphemeralKey =
      .error .notSupportedError :=
  handshakeFlow_notSupportedError [104, 105] exampleRecipientKey exampleEphemeralKey
    exampleSettings [7] (List.replicate 16 0) [118]
    (by decide) (by decide) (by decide) (by decide) (by decide) (by decide)
    (by decide) (by decide) (by decide)

/-- C7: chunk count, shared transaction id, per-chunk numbering, true
data lengths, NUL padding to the fixed size, and the tab-joined encoding. -/
theorem getQrSequence_spec (message transactionId : List Char) (chunkSize : Nat)
    (h : 0 < chunkSize) :
    (getQrSequence message transactionId chunkSize).length =
      ceilDiv message.length chunkSize
    ∧ ∀ (i : Nat) (hi : i < (getQrSequence message transactionId chunkSize).length),
        ((getQrSequence message transactionId chunkSize).get ⟨i, hi⟩).transactionId =
          transactionId
        ∧ ((getQrSequence message transactionId chunkSize).get ⟨i, hi⟩).chunkNo = i
        ∧ ((getQrSequence message transactionId chunkSize).get ⟨i, hi⟩).totalChunks =
            ceilDiv message.length chunkSize
        ∧ ((getQrSequence message transactionId chunkSize).get ⟨i, hi⟩).dataLength =
            min chunkSize (message.length - chunkSize * i)
        ∧ ((getQrSequence message transactionId chunkSize).get ⟨i, hi⟩).data =
            (message.drop (chunkSize * i)).take chunkSize ++
              List.replicate
                (chunkSize - ((message.drop (chunkSize * i)).take chunkSize).length)
                nulChar
        ∧ ((getQrSequence message transactionId chunkSize).get ⟨i, hi⟩).data.length =
            chunkSize
        ∧ ((getQrSequence message transactionId chunkSize).get ⟨i, hi⟩).encoded =
            transactionId ++ tabChar ::
              ((Nat.repr i).toList ++ tabChar ::
                ((Nat.repr (ceilDiv message.length chunkSize)).toList ++ tabChar ::
                  ((Nat.repr (min chunkSize (message.length - chunkSize * i))).toList ++
                    tabChar ::
                    ((getQrSequence message transactionId chunkSize).get ⟨i, hi⟩).data))) := by
  constructor
  · simp [getQrSequence]
  · intro i hi
    have hilt : i < ceilDiv message.length chunkSize := by
      simpa [getQrSequence] using hi
    have hget : (getQrSequence message transactionId chunkSize).get ⟨i, hi⟩ =
        (let sliced := (message.drop (chunkSize * i)).take chunkSize
         let chunkData :=
           if sliced.length < chunkSize then
             sliced ++ List.replicate (chunkSize - sliced.length) nulChar
           else sliced
         let dataLength := min chunkSize (message.length - chunkSize * i)
         let encoded :=
           transactionId ++ tabChar ::
             ((Nat.repr i).toList ++ tabChar ::
               ((Nat.repr (ceilDiv message.length chunkSize)).toList ++ tabChar ::
                 ((Nat.repr dataLength).toList ++ tabChar :: chunkData)))
         (⟨transactionId, i, ceilDiv message.length chunkSize, dataLength,
           chunkData, encoded⟩ : QrChunk)) := by
      rw [List.get_eq_getElem]
      simp [getQrSequence]
    rw [hget]
    have hslice : ((message.drop (chunkSize * i)).take chunkSize).length ≤ chunkSize := by
      simp [List.length_take]
    have hdata : (if ((message.drop (chunkSize * i)).take chunkSize).length < chunkSize then
          (message.drop (chunkSize * i)).take chunkSize ++
            List.replicate
              (chunkSize - ((message.drop (chunkSize * i)).take chunkSize).length) nulChar
        else (message.drop (chunkSize * i)).take chunkSize) =
        (message.drop (chunkSize * i)).take chunkSize ++
          List.replicate
            (chunkSize - ((message.drop (chunkSize * i)).take chunkSize).length) nulChar := by
      by_cases hl : ((message.drop (chunkSize * i)).take chunkSize).length < chunkSize
      · rw [if_pos hl]
      · rw [if_neg hl]
        have h0 : chunkSize - ((message.drop (chunkSize * i)).take chunkSize).length = 0 := by
          omega
        rw [h0]
        simp
    refine ⟨rfl, rfl, rfl, rfl, ?_, ?_, ?_⟩
    · simpa using hdata
    · show (if ((message.drop (chunkSize * i)).take chunkSize).length < chunkSize then
          (message.drop (chunkSize * i)).take chunkSize ++
            List.replicate
              (chunkSize - ((message.drop (chunkSize * i)).take chunkSize).length) nulChar
        else (message.drop (chunkSize * i)).take chunkSize).length = chunkSize
      rw [hdata]
      simp only [List.length_append, List.length_replicate]
      omega
    · rfl

set_option maxRecDepth 4000 in
theorem getQrSequence_spec_witness :
    (getQrSequence (List.replicate 450 (Char.ofNat 97)) [Char.ofNat 97] 200).length =
      ceilDiv (List.replicate 450 (Char.ofNat 97)).length 200
    ∧ (getQrSequence (List.replicate 450 (Char.ofNat 97)) [Char.ofNat 97] 200).map
        (fun c => c.dataLength) = [200, 200, 50]
    ∧ (getQrSequence (List.replicate 450 (Char.ofNat 97)) [Char.ofNat 97] 200).map
        (fun c => c.data.length) = [200, 200, 200] := by
  refine ⟨(getQrSequence_spec (List.replicate 450 (Char.ofNat 97)) [Char.ofNat 97] 200
    (by decide)).1, ?_, ?_⟩
  · rfl
  · rfl

/-- Success shape of `createEncryptedMessage` under supported indices. -/
theorem createEncryptedMessage_eq (message : Bytes) (pub : RsaPublicKey)
    (settings : EncryptionSettings) (appId : Nat) (akr riv : Bytes)
    (rsaT : RsaTransformation) (aesT : AesTransformation)
    (hrt : RSA_TRANSFORMATIONS settings.rsaTransformationIdx = some rsaT)
    (hat : AES_TRANSFORMATIONS.get? settings.aesTransformationIdx = some aesT) :
    Crypto.createEncryptedMessage message pub settings appId akr riv =
      .ok ⟨true, envelopeBytes APPLICATION_IDS.RSA_AES_GENERIC
        settings.rsaTransformationIdx (getFingerprint pub)
        settings.aesTransformationIdx riv
        (rsaSeal ⟨pub, rsaT.algorithm.hash⟩ akr)
        (writeByteArray
          (fileCipherBytes aesT akr riv (Crypto.createPayload appId message)))⟩ := by
  have hname : rsaT.algorithm.name = "RSA-OAEP" := rsaEntry_algorithm_name hrt
  unfold Crypto.createEncryptedMessage
  rw [hat, hrt]
  by_cases hg : aesT.algorithm = "AES-GCM" <;>
    simp [Crypto.parsePublicKey, hrt, subtleRsaEncrypt, hname,
      Crypto.aesEncryptData, subtleAesEncrypt, hg, exceptBind_ok,
      fileCipherBytes, envelopeBytes] <;>
    rfl

/-- Success shape of `encryptAndLock` under supported indices: the
pin-locked state carries the PBKDF2 key of the PIN and salt and the GCM
ciphertext of the serialized vault, and the live vault data is reset. -/
theorem encryptAndLock_ok (vault : VaultData) (pub : RsaPublicKey)
    (settings : EncryptionSettings) (pin rk riv salt iv : Bytes)
    (hidx : settings.rsaTransformationIdx = 1 ∨ settings.rsaTransformationIdx = 2)
    (haes : settings.aesTransformationIdx < 3) :
    ∃ M, encryptAndLock vault pub settings pin rk riv salt iv =
      .ok (.pinLocked (.pbkdf2 pin salt) salt iv
        (gcmEncrypt (.pbkdf2 pin salt) iv vault) M, EMPTY_VAULT) := by
  obtain ⟨rsaT, hrt⟩ : ∃ t, RSA_TRANSFORMATIONS settings.rsaTransformationIdx = some t := by
    rcases hidx with hx | hx <;> rw [hx] <;> exact ⟨_, rfl⟩
  obtain ⟨aesT, hat⟩ : ∃ t, AES_TRANSFORMATIONS.get? settings.aesTransformationIdx = some t := by
    have h3 : settings.aesTransformationIdx = 0 ∨ settings.aesTransformationIdx = 1 ∨
        settings.aesTransformationIdx = 2 := by omega
    rcases h3 with hx | hx | hx <;> rw [hx] <;> exact ⟨_, rfl⟩
  have hM := createEncryptedMessage_eq (pin ++ [10]) pub settings
    APPLICATION_IDS.ENCRYPTED_OTP rk riv rsaT aesT hrt hat
  refine ⟨⟨true, envelopeBytes APPLICATION_IDS.RSA_AES_GENERIC
    settings.rsaTransformationIdx (getFingerprint pub)
    settings.aesTransformationIdx riv (rsaSeal ⟨pub, rsaT.algorithm.hash⟩ rk)
    (writeByteArray (fileCipherBytes aesT rk riv
      (Crypto.createPayload APPLICATION_IDS.ENCRYPTED_OTP (pin ++ [10]))))⟩, ?_⟩
  unfold encryptAndLock
  rw [hM]
  simp [exceptBind_ok, generateKeyFromPassword]

/-- C6: unlocking the state produced by `encryptAndLock` with the correct
PIN recovers exactly the locked vault data and moves to the ready state;
any other input returns `false` without disturbing the locked state. -/
theorem unlockPin_after_encryptAndLock (vault : VaultData) (pub : RsaPublicKey)
    (settings : EncryptionSettings) (pin rk riv salt iv input : Bytes)
    (st : VaultState) (d0 : VaultData)
    (h : encryptAndLock vault pub settings pin rk riv salt iv = .ok (st, d0)) :
    unlockPin pin st d0 = (true, .ready, vault)
    ∧ (input ≠ pin → unlockPin input st d0 = (false, st, d0)) := by
  unfold encryptAndLock at h
  cases hM : Crypto.createEncryptedMessage (pin ++ [10]) pub settings
      APPLICATION_IDS.ENCRYPTED_OTP rk riv with
  | error e =>
    rw [hM] at h
    simp [exceptBind_error] at h
  | ok M =>
    rw [hM] at h
    simp only [exceptBind_ok, generateKeyFromPassword, Except.ok.injEq,
      Prod.mk.injEq] at h
    obtain ⟨hst, hd0⟩ := h
    subst hd0
    constructor
    · rw [← hst]
      simp [unlockPin, generateKeyFromPassword, gcmDecrypt, gcmEncrypt]
    · intro hne
      rw [← hst]
      have hne2 : SymKey.pbkdf2 pin salt ≠ SymKey.pbkdf2 input salt := by
        intro hx
        injection hx with hx1 hx2
        exact hne hx1.symm
      simp [unlockPin, generateKeyFromPassword, gcmDecrypt, gcmEncrypt, hne2]

theorem unlockPin_after_encryptAndLock_witness :
    ∃ (st : VaultState) (d0 : VaultData),
      encryptAndLock [1, 2, 3] exampleRecipientKey exampleSettings
        [4, 2, 0, 8, 1, 5] [7] (List.replicate 12 0) (List.replicate 16 2)
        (List.replicate 12 3) = .ok (st, d0)
      ∧ unlockPin [4, 2, 0, 8, 1, 5] st d0 = (true, .ready, [1, 2, 3])
      ∧ unlockPin [9, 9, 9, 9, 9, 9] st d0 = (false, st, d0) := by
  obtain ⟨M, hM⟩ := encryptAndLock_ok [1, 2, 3] exampleRecipientKey exampleSettings
    [4, 2, 0, 8, 1, 5] [7] (List.replicate 12 0) (List.replicate 16 2)
    (List.replicate 12 3) (by decide) (by decide)
  refine ⟨_, _, hM, ?_, ?_⟩
  · exact (unlockPin_after_encryptAndLock [1, 2, 3] exampleRecipientKey exampleSettings
      [4, 2, 0, 8, 1, 5] [7] (List.replicate 12 0) (List.replicate 16 2)
      (List.replicate 12 3) [9, 9, 9, 9, 9, 9] _ _ hM).1
  · exact (unlockPin_after_encryptAndLock [1, 2, 3] exampleRecipientKey exampleSettings
      [4, 2, 0, 8, 1, 5] [7] (List.replicate 12 0) (List.replicate 16 2)
      (List.replicate 12 3) [9, 9, 9, 9, 9, 9] _ _ hM).2 (by decide)
